import Mathlib

/-!
Verification of the PlayoffPurge fantasy-football code base.

This file gives a shallow embedding, in Lean, of the parts of the repository
that the specification's claims are about:

* `models.py` — the entity model (`Player`, `AvailablePlayer`, `DraftState`,
  `DraftPick` and their defensive normalisation in `__post_init__`);
* `main.py` — the roster-eligibility engine `validate_roster_with_flex`;
* `sheets_client.py` — the remote-store gateway (retry loop of `_get_range` /
  `_batch_get_ranges`), the TTL cache, `get_all_draft_data` two-tier refresh,
  and the mutations `make_draft_pick`, `drop_player`, `add_player`.

Modelling conventions:

* Python strings are Lean `String`s; `str.upper()/lower()/strip()` are
  `pyUpper`/`pyLower`/`pyTrim` below (the data is ASCII; structural
  recursion is used so that concrete runs reduce in the kernel).
* Python `int(...)` is `pythonInt : String → Option Int` (strip, optional
  sign, digits with single underscores between digits).
* The float-valued display fields (`points`, `projected_points`, `fppg`) and
  the `PlayerPool_FanDuel` enrichment join are display-only and are referred
  to by no claim; they are omitted from the embedded records.
* The remote spreadsheet is a `Store` of row lists (rows as they come back
  from the `A2:...` data ranges); the TTL cache is an association list whose
  string keys are exactly the source's cache keys, an entry being present
  meaning "cached and not yet expired".
* The Python set of assigned candidate indices in `validate_roster_with_flex`
  is modelled by its characteristic vector (a `List Bool` running in lockstep
  with the candidate list).
-/

/-- Python `str.upper()` (kernel-reducible form of `String.toUpper`, used so
that concrete witnesses evaluate by `decide`). -/
def pyUpper (s : String) : String :=
  ⟨s.data.map Char.toUpper⟩

/-- Python `str.lower()` (kernel-reducible form of `String.toLower`). -/
def pyLower (s : String) : String :=
  ⟨s.data.map Char.toLower⟩

/-- Python `str.strip()` (kernel-reducible form of `String.trim`). -/
def pyTrim (s : String) : String :=
  ⟨((s.data.dropWhile Char.isWhitespace).reverse.dropWhile Char.isWhitespace).reverse⟩

/-- Split a character list at every occurrence of `sep`. -/
def splitOnCharAux (sep : Char) : List Char → List Char → List (List Char)
  | acc, [] => [acc.reverse]
  | acc, c :: rest =>
    if c == sep then acc.reverse :: splitOnCharAux sep [] rest
    else splitOnCharAux sep (c :: acc) rest

/-- Python `str.split(sep)` for a one-character separator (the source only
ever splits on `"/"`); kernel-reducible form of `String.splitOn`. -/
def pySplitOn (s : String) (sep : Char) : List String :=
  (splitOnCharAux sep [] s.data).map (fun l => ⟨l⟩)

/-- Model of Python `int(s)` for strings: strip whitespace, optional sign,
then decimal digits in which single underscores may separate digit groups.
Returns `none` where Python raises `ValueError`. -/
def digitsOkAux : Bool → List Char → Bool
  | prevDigit, [] => prevDigit
  | prevDigit, c :: rest =>
    if c.isDigit then digitsOkAux true rest
    else if c == '_' then prevDigit && digitsOkAux false rest
    else false

/-- Numeric value of a digit list (underscores already removed). -/
def digitsVal (cs : List Char) : Nat :=
  cs.foldl (fun a c => a * 10 + (c.toNat - 48)) 0

/-- Python `int(s)`: `some n` on success, `none` where Python raises. -/
def pythonInt (s : String) : Option Int :=
  let cs := ((s.toList.dropWhile Char.isWhitespace).reverse.dropWhile Char.isWhitespace).reverse
  let core := fun (l : List Char) (sign : Int) =>
    if digitsOkAux false l then some (sign * Int.ofNat (digitsVal (l.filter (fun c => c != '_')))) else none
  match cs with
  | '+' :: rest => core rest 1
  | '-' :: rest => core rest (-1)
  | rest => core rest 1

/-! ## models.py -/

/-- `models.Player` (the float fields `points` / `projected_points` are
display-only and claim-irrelevant, so they are not carried). -/
structure Player where
  position : String
  player_name : String
  team : String
  status : String
  roster_eligibility : String
deriving DecidableEq, Repr

/-- The `roster_eligibility` defaulting shared by `Player.__post_init__` and
`AvailablePlayer.__post_init__` (models.py lines 29-35 / 188-194): a blank
tag becomes `"<POS>/FLEX"` for RB/WR/TE and `"<POS>"` otherwise. -/
def defaultEligibility (position roster_eligibility : String) : String :=
  if roster_eligibility == "" || pyTrim roster_eligibility == "" then
    let pos := pyUpper position
    if ["RB", "WR", "TE"].contains pos then pos ++ "/FLEX" else pos
  else roster_eligibility

/-- `Player.get_eligible_positions` (models.py lines 37-46). -/
def Player.get_eligible_positions (p : Player) : List String :=
  if (pySplitOn p.roster_eligibility '/').length > 1 then
    pySplitOn p.roster_eligibility '/'
  else [p.roster_eligibility]

/-- `Player.can_fill_position` (models.py lines 48-71). -/
def Player.can_fill_position (p : Player) (required_position : String) : Bool :=
  let req_pos := pyUpper required_position
  let player_pos := pyUpper p.position
  if req_pos == "SUPERFLEX" then
    ["QB", "RB", "WR", "TE"].contains player_pos
  else if req_pos == "FLEX" then
    ["RB", "WR", "TE"].contains player_pos
  else
    (p.get_eligible_positions.map pyUpper).contains req_pos

/-- `models.AvailablePlayer` (the enrichment fields `fppg` / `opponent` are
display-only floats/strings referred to by no claim and are not carried). -/
structure AvailablePlayer where
  player_id : String
  player_name : String
  position : String
  nfl_team : String
  bye_week : Int
  status : String
  roster_eligibility : String
deriving DecidableEq, Repr

/-- `AvailablePlayer.is_available` (models.py lines 196-199). -/
def AvailablePlayer.is_available (p : AvailablePlayer) : Bool :=
  pyLower p.status == "available"

/-- `AvailablePlayer.get_eligible_positions` (models.py lines 201-205). -/
def AvailablePlayer.get_eligible_positions (p : AvailablePlayer) : List String :=
  if (pySplitOn p.roster_eligibility '/').length > 1 then
    pySplitOn p.roster_eligibility '/'
  else [p.roster_eligibility]

/-- `AvailablePlayer.can_fill_position` (models.py lines 207-230). -/
def AvailablePlayer.can_fill_position (p : AvailablePlayer) (required_position : String) : Bool :=
  let req_pos := pyUpper required_position
  let player_pos := pyUpper p.position
  if req_pos == "SUPERFLEX" then
    ["QB", "RB", "WR", "TE"].contains player_pos
  else if req_pos == "FLEX" then
    ["RB", "WR", "TE"].contains player_pos
  else
    (p.get_eligible_positions.map pyUpper).contains req_pos

/-- `models.DraftState` after `__post_init__` normalisation. -/
structure DraftState where
  current_round : Int
  current_pick : Int
  draft_started : Bool
  draft_complete : Bool
  last_pick_time : String
deriving DecidableEq, Repr

/-- `DraftState.__post_init__` (models.py lines 242-258) applied to raw string
fields: round and pick each default to 1 on their own parse failure, the
booleans are parsed from the truthy token set independently. -/
def DraftState.mk_post (current_round current_pick draft_started draft_complete last_pick_time : String) : DraftState :=
  { current_round := (pythonInt current_round).getD 1
    current_pick := (pythonInt current_pick).getD 1
    draft_started := ["true", "1", "yes"].contains (pyLower draft_started)
    draft_complete := ["true", "1", "yes"].contains (pyLower draft_complete)
    last_pick_time := last_pick_time }

/-- A Python value that is either an `int` or still the raw `str`:
`DraftPick.__post_init__` converts its numeric fields inside a single
`try`, so a failure leaves that field and the following ones as strings. -/
inductive PyVal where
  | int (n : Int)
  | str (s : String)
deriving DecidableEq, Repr

/-- Python `==` between a `PyVal` and an int (an unconverted string never
equals an int). -/
def PyVal.eqInt (v : PyVal) (n : Int) : Bool :=
  match v with
  | .int m => m == n
  | .str _ => false

/-- `models.DraftPick` after `__post_init__`. -/
structure DraftPick where
  round : PyVal
  pick : PyVal
  team_id : PyVal
  owner_name : String
  status : String
  player_id : PyVal
  player_name : String
deriving DecidableEq, Repr

/-- `DraftPick.__post_init__` (models.py lines 272-280): the conversions run
sequentially in one `try`; the first failure leaves the remaining numeric
fields unconverted. `player_id` falls back to `0` when falsy. -/
def DraftPick.mk_post (round pick team_id owner_name status player_id player_name : String) : DraftPick :=
  let base : DraftPick :=
    { round := .str round, pick := .str pick, team_id := .str team_id
      owner_name := owner_name, status := status
      player_id := .str player_id, player_name := player_name }
  match pythonInt round with
  | none => base
  | some r =>
    match pythonInt pick with
    | none => { base with round := .int r }
    | some p =>
      match pythonInt team_id with
      | none => { base with round := .int r, pick := .int p }
      | some t =>
        if player_id == "" then
          { base with round := .int r, pick := .int p, team_id := .int t, player_id := .int 0 }
        else
          match pythonInt player_id with
          | none => { base with round := .int r, pick := .int p, team_id := .int t }
          | some pid =>
            { base with round := .int r, pick := .int p, team_id := .int t, player_id := .int pid }

/-- `DraftPick.is_current` (models.py lines 282-285). -/
def DraftPick.is_current (p : DraftPick) : Bool :=
  pyLower p.status == "current"

/-- `DraftPick.is_completed` (models.py lines 287-290). -/
def DraftPick.is_completed (p : DraftPick) : Bool :=
  pyLower p.status == "completed"

/-! ## main.py — `validate_roster_with_flex` (lines 38-116)

The Python function keeps a *set* of assigned candidate indices; here that
set is the characteristic vector `List Bool` running in lockstep with the
candidate list, so "index `i` is in the set" is "the `i`-th flag is true". -/

/-- The inner `for idx, player in enumerate(players)` search of both phases:
scan the candidates in list order, skip assigned ones, and set the flag of
the first one that `can_fill_position` the slot. `none` when no candidate
can be assigned. -/
def findAssign (reqPos : String) : List Player → List Bool → Option (List Bool)
  | p :: ps, b :: bs =>
    if !b && p.can_fill_position reqPos then some (true :: bs)
    else (findAssign reqPos ps bs).map (fun v => b :: v)
  | _, _ => none

/-- Phase 1 (main.py lines 74-88): iterate over the snapshot of the required
list, skip `FLEX` slots, and for each other slot assign the first
fillable unassigned candidate, removing the slot from the pending list. -/
def phase1 (players : List Player) : List String → List String → List Bool → List String × List Bool
  | [], pending, flags => (pending, flags)
  | s :: rest, pending, flags =>
    if pyUpper s == "FLEX" then phase1 players rest pending flags
    else
      match findAssign s players flags with
      | some flags2 => phase1 players rest (pending.erase s) flags2
      | none => phase1 players rest pending flags

/-- Phase 2 (main.py lines 90-103): for each remaining `FLEX` slot, assign the
first unassigned `FLEX`-eligible candidate. -/
def phase2 (players : List Player) : List String → List String → List Bool → List String × List Bool
  | [], pending, flags => (pending, flags)
  | fs :: rest, pending, flags =>
    match findAssign "FLEX" players flags with
    | some flags2 => phase2 players rest (pending.erase fs) flags2
    | none => phase2 players rest pending flags

/-- The matching run by `validate_roster_with_flex` once the early size checks
have passed: phase 1 over the whole required list, then phase 2 over the
remaining `FLEX` slots. Returns the pending slot list and assignment flags. -/
def runMatching (players : List Player) (required_positions : List String) : List String × List Bool :=
  let init := List.replicate players.length false
  let r1 := phase1 players required_positions required_positions init
  let flex_slots := r1.1.filter (fun s => pyUpper s == "FLEX")
  phase2 players flex_slots r1.1 r1.2

/-- `validate_roster_with_flex` (main.py lines 38-116). -/
def validate_roster_with_flex (roster_players : List Player) (required_positions : List String) : Bool × String :=
  if roster_players.length == 0 then
    (true, "Empty roster is valid during draft")
  else if roster_players.length > required_positions.length then
    (false, "Roster has too many players: " ++ toString roster_players.length
      ++ " > " ++ toString required_positions.length)
  else
    let r2 := runMatching roster_players required_positions
    if (r2.2.count true) != roster_players.length then
      let unassigned := ((roster_players.zip r2.2).filter (fun pb => !pb.2)).map
        (fun pb => pb.1.player_name)
      (false, "Cannot fit player(s) into roster: " ++ String.intercalate ", " unassigned)
    else if roster_players.length == required_positions.length && r2.1.length > 0 then
      (false, "Complete roster missing positions: " ++ String.intercalate ", " r2.1)
    else
      (true, "Roster valid")

/-! ## sheets_client.py — retry loop of `_get_range` / `_batch_get_ranges`
(lines 54-93 and 95-141)

One remote attempt either returns a payload, raises an `HttpError` with a
status code, or raises some other exception. A call with `retry_count = n`
is modelled by the list of the outcomes the remote would give to the `n`
attempts; `retryFetch` replays the loop over that list, recording the
`time.sleep(2 ** attempt)` back-off durations. -/

/-- Outcome of one remote attempt. -/
inductive Outcome (α : Type) where
  | ok (value : α)
  | http (status : Nat)
  | exn
deriving DecidableEq, Repr

/-- What the caller of `_get_range` / `_batch_get_ranges` observes: a
returned value, or a propagated exception. -/
inductive RetryResult (α : Type) where
  | value (v : α)
  | raised
deriving DecidableEq, Repr

/-- The transient statuses retried by the gateway: `[429, 500, 503]`. -/
def transientStatus (s : Nat) : Bool :=
  s == 429 || s == 500 || s == 503

/-- The shared retry loop of `_get_range` and `_batch_get_ranges`: `empty` is
the value returned when the attempt bound is exhausted (`return []` /
`return {}` after the `for` loop). The second component is the list of
back-off sleeps performed, in seconds. -/
def retryFetch {α : Type} (empty : α) : Nat → List (Outcome α) → RetryResult α × List Nat
  | _, [] => (.value empty, [])
  | attempt, o :: rest =>
    match o with
    | .ok v => (.value v, [])
    | .http s =>
      if transientStatus s then
        let r := retryFetch empty (attempt + 1) rest
        (r.1, 2 ^ attempt :: r.2)
      else (.raised, [])
    | .exn =>
      if rest.isEmpty then (.raised, [])
      else
        let r := retryFetch empty (attempt + 1) rest
        (r.1, 2 ^ attempt :: r.2)

/-- `_get_range` (sheets_client.py lines 54-93), as a function of the outcome
each attempt would get; `attempts.length` is the `retry_count` (default 3). -/
def get_range_retry (attempts : List (Outcome (List (List String)))) :
    RetryResult (List (List String)) × List Nat :=
  retryFetch [] 0 attempts

/-- `_batch_get_ranges` (sheets_client.py lines 95-141): same loop, the
payload being the range-to-rows map and the exhausted default `{}`. -/
def batch_get_ranges_retry (attempts : List (Outcome (List (String × List (List String))))) :
    RetryResult (List (String × List (List String))) × List Nat :=
  retryFetch [] 0 attempts

/-! ## sheets_client.py — store, cache and parsers -/

/-- The remote spreadsheet, one field per data range the embedded code
reads or writes (rows of the `A2:...` range, i.e. without header). -/
structure Store where
  league_meta_rows : List (List String)
  teams_rows : List (List String)
  requirements_rows : List (List String)
  roster_rows : List (List String)
  available_rows : List (List String)
  pool_rows : List (List String)
  draft_state_rows : List (List String)
  draft_order_rows : List (List String)
deriving DecidableEq, Repr

/-- `row[i]` for a spreadsheet row (missing trailing cells read as empty). -/
def cell (row : List String) (i : Nat) : String :=
  row.getD i ""

/-- Key normalisation of the key-value tabs (League_Meta, Draft_State):
`row[0].strip().lower().replace(" ", "_")`. -/
def normKey (s : String) : String :=
  ⟨(pyLower (pyTrim s)).data.map (fun c => if c == ' ' then '_' else c)⟩

/-- Dictionary lookup over a key-value tab: the rows with at least two cells
are folded into a dict (later rows overwrite earlier ones), then
`dict.get(key, dflt)`; the stored value is `row[1].strip()`. -/
def kvGet (rows : List (List String)) (key dflt : String) : String :=
  let hit := rows.foldl (fun acc row =>
    if row.length ≥ 2 && normKey (cell row 0) == key then some (pyTrim (cell row 1)) else acc) none
  hit.getD dflt

/-- The parse of `get_draft_state` (sheets_client.py lines 561-611). -/
def parseDraftState (rows : List (List String)) : DraftState :=
  DraftState.mk_post
    (kvGet rows "current_round" "1")
    (kvGet rows "current_pick" "1")
    (kvGet rows "draft_started" "false")
    (kvGet rows "draft_complete" "false")
    (kvGet rows "last_pick_time" "")

/-- The parse of `get_draft_order` (sheets_client.py lines 613-655): rows
with fewer than 5 cells are skipped, columns F/G default to `0` / `""`. -/
def parseDraftOrder (rows : List (List String)) : List DraftPick :=
  rows.filterMap (fun row =>
    if row.length < 5 then none
    else some (DraftPick.mk_post (cell row 0) (cell row 1) (cell row 2) (cell row 3) (cell row 4)
      (if row.length > 5 then cell row 5 else "") (if row.length > 6 then cell row 6 else "")))

/-- `AvailablePlayer.__post_init__` (models.py lines 178-194) applied to raw
string cells: `player_id` stays a string, `bye_week` falls back to 0,
`roster_eligibility` is defaulted from the position when blank. -/
def AvailablePlayer.mk_post (player_id player_name position nfl_team bye_week status roster_eligibility : String) : AvailablePlayer :=
  { player_id := player_id
    player_name := player_name
    position := position
    nfl_team := nfl_team
    bye_week := if bye_week == "" then 0 else (pythonInt bye_week).getD 0
    status := status
    roster_eligibility := defaultEligibility position roster_eligibility }

/-- The parse of `get_available_players` (sheets_client.py lines 451-559)
without a position filter, as the mutations call it: rows with fewer than
6 cells are skipped, column G defaults to `""`. (The `PlayerPool_FanDuel`
enrichment join only fills the display-only `fppg`/`opponent` fields and
is omitted, see the header.) -/
def parseAvailablePlayers (rows : List (List String)) : List AvailablePlayer :=
  rows.filterMap (fun row =>
    if row.length < 6 then none
    else some (AvailablePlayer.mk_post (cell row 0) (cell row 1) (cell row 2) (cell row 3)
      (cell row 4) (cell row 5) (if row.length > 6 then cell row 6 else "")))

/-- `models.LeagueMeta` (its `__post_init__` defaults never fire here because
`get_league_meta` already passes non-empty defaults). -/
structure LeagueMeta where
  league_name : String
  current_week : String
  last_updated : String
deriving DecidableEq, Repr

/-- The parse of league metadata shared by `get_league_meta` and the batch
fetch (sheets_client.py lines 163-175 / 722-734). -/
def parseLeagueMeta (rows : List (List String)) : LeagueMeta :=
  { league_name := kvGet rows "league_name" "PlayoffPurge"
    current_week := kvGet rows "current_week" "Week 18"
    last_updated := kvGet rows "last_updated" "Unknown" }

/-! ## sheets_client.py — the TTL cache

Keys are exactly the source's cache-key strings; an entry being present
models "cached and not yet expired" (TTL expiry = absence). `cacheSet` is
dictionary assignment, `cachePop` is `dict.pop(key, None)`. -/

/-- The combined snapshot assembled by `get_all_draft_data` (sheets_client.py
lines 894-904). The display-only tables (teams, requirements, rosters) are
carried at row level: no claim refers to their parsed form, and the
two-tier refresh passes them through unchanged either way. -/
structure AllDraftData where
  league_meta : LeagueMeta
  teams_rows : List (List String)
  requirements_rows : List (List String)
  rosters_rows : List (List String)
  available_players : List AvailablePlayer
  draft_state : DraftState
  draft_order : List DraftPick
  current_pick : Option DraftPick
deriving DecidableEq, Repr

/-- A cached value (one constructor per family of cache keys). -/
inductive CacheEntry where
  | draftState (s : DraftState)
  | draftOrder (l : List DraftPick)
  | availablePlayers (l : List AvailablePlayer)
  | allDraftData (d : AllDraftData)
  | roster (l : List Player)
  | leagueMeta (m : LeagueMeta)
  | tableRows (l : List (List String))
deriving DecidableEq, Repr

/-- The TTL cache: an association list from cache-key strings to entries. -/
abbrev Cache := List (String × CacheEntry)

/-- `self._cache[key]` when present and unexpired. -/
def cacheGet (c : Cache) (k : String) : Option CacheEntry :=
  (c.find? (fun kv => kv.1 == k)).map (fun kv => kv.2)

/-- `self._cache[key] = v`. -/
def cacheSet (c : Cache) (k : String) (v : CacheEntry) : Cache :=
  (k, v) :: c.filter (fun kv => kv.1 != k)

/-- `self._cache.pop(key, None)`. -/
def cachePop (c : Cache) (k : String) : Cache :=
  c.filter (fun kv => kv.1 != k)

/-! ## sheets_client.py — `get_all_draft_data` (lines 668-922) -/

/-- A remote fetch performed by the cache layer: a single-range read or the
one batched multi-range read. -/
inductive FetchEv where
  | small (range : String)
  | batch (ranges : List String)
deriving DecidableEq, Repr

/-- The eight ranges of the batched snapshot fetch (sheets_client.py
lines 710-719). -/
def allDraftRanges : List String :=
  ["League_Meta!A2:B10", "Teams!A2:G100", "Roster_Requirements!A2:D10", "Rosters!A2:I500",
   "Available_Players!A2:G500", "PlayerPool_FanDuel!A1:Z500", "Draft_State!A2:B10", "Draft_Order!A2:G100"]

/-- Local parsing of the batched snapshot (sheets_client.py lines 721-904). -/
def buildAllDraftData (store : Store) : AllDraftData :=
  let order := parseDraftOrder store.draft_order_rows
  { league_meta := parseLeagueMeta store.league_meta_rows
    teams_rows := store.teams_rows
    requirements_rows := store.requirements_rows
    rosters_rows := store.roster_rows
    available_players := parseAvailablePlayers store.available_rows
    draft_state := parseDraftState store.draft_state_rows
    draft_order := order
    current_pick := order.find? DraftPick.is_current }

/-- `get_all_draft_data` (sheets_client.py lines 668-922). Returns the data,
the cache afterwards, and the remote fetches performed. The two-tier
branch re-fetches only the draft state and the current pick, each as its
own small range read (`get_draft_state(use_cache=False)` and
`get_current_pick(use_cache=False)`, which also refresh their own cache
entries); otherwise a cached snapshot is served as is, or the full batch
fetch runs and is cached. -/
def get_all_draft_data (store : Store) (cache : Cache) (use_cache force_fresh_draft_state : Bool) :
    AllDraftData × Cache × List FetchEv :=
  match (if use_cache then cacheGet cache "all_draft_data" else none) with
  | some (.allDraftData cached) =>
    if force_fresh_draft_state then
      let fresh_state := parseDraftState store.draft_state_rows
      let cache := cacheSet cache "draft_state" (.draftState fresh_state)
      let order := parseDraftOrder store.draft_order_rows
      let cache := cacheSet cache "draft_order" (.draftOrder order)
      let fresh_pick := order.find? DraftPick.is_current
      ({ cached with draft_state := fresh_state, current_pick := fresh_pick }, cache,
        [.small "Draft_State!A2:B10", .small "Draft_Order!A2:G100"])
    else (cached, cache, [])
  | _ =>
    let data := buildAllDraftData store
    (data, cacheSet cache "all_draft_data" (.allDraftData data), [.batch allDraftRanges])

/-! ## sheets_client.py — mutations (lines 954-1211) -/

/-- A remote write, each constructor one write call site, carrying the sheet
row numbers the source computes (`idx + 2` over the parsed list). -/
inductive WriteOp where
  | updateAvailableStatus (sheet_row : Nat) (value : String)
  | appendRosterRow (values : List String)
  | completeDraftOrderRow (sheet_row : Nat) (values : List String)
  | setDraftOrderCurrent (sheet_row : Nat)
  | writeDraftState (values : List String)
  | deleteRosterRow (start_index end_index : Nat)
deriving DecidableEq, Repr

/-- Write a cell, padding the row with empty cells if it is short. -/
def setCell (row : List String) (i : Nat) (v : String) : List String :=
  (row ++ List.replicate (i + 1 - row.length) "").set i v

/-- Modify the row at a data index (no-op when out of range). -/
def modifyRow : List (List String) → Nat → (List String → List String) → List (List String)
  | [], _, _ => []
  | r :: rs, 0, f => f r :: rs
  | r :: rs, n + 1, f => r :: modifyRow rs n f

/-- Pad a row list with empty rows up to length `n`. -/
def padRows (rows : List (List String)) (n : Nat) : List (List String) :=
  rows ++ List.replicate (n - rows.length) []

/-- Write successive values down column B (cell index 1) starting at a data
row index, extending the table as needed (the `Draft_State!B2:B5` write). -/
def writeColumnB : List (List String) → Nat → List String → List (List String)
  | rows, _, [] => rows
  | rows, i, v :: vs => writeColumnB (modifyRow (padRows rows (i + 1)) i (fun r => setCell r 1 v)) (i + 1) vs

/-- The row search of `make_draft_pick` step 4 / `add_player`
(`str(row[0]) == str(player_id)` over `Available_Players!A2:A500`). -/
def findRowByCol0 (rows : List (List String)) (key : String) : Option Nat :=
  rows.findIdx? (fun row => row.length > 0 && cell row 0 == key)

/-- Result of a mutation: the returned boolean, the remote store and cache
afterwards, and the remote writes performed in order. -/
structure MutResult where
  success : Bool
  store : Store
  cache : Cache
  writes : List WriteOp
deriving DecidableEq, Repr

/-- The total round count hard-coded in `make_draft_pick` step 7
(sheets_client.py line 1059, "Assuming 5 rounds"). -/
def assumedTotalRounds : Int := 5

/-- `make_draft_pick` (sheets_client.py lines 954-1075). The reads of steps
1-3 bypass the cache but refresh their own entries, exactly as
`get_draft_state` / `get_draft_order` / `get_available_players` do; every
failure path returns `False` before the first remote write. -/
def make_draft_pick (store : Store) (cache : Cache) (player_id : String) (team_id : Int)
    (owner_name : String) (current_week : String) (now_iso : String) : MutResult :=
  -- 1. current draft state and current pick (use_cache=False reads)
  let draft_state := parseDraftState store.draft_state_rows
  let cache := cacheSet cache "draft_state" (.draftState draft_state)
  let draft_order0 := parseDraftOrder store.draft_order_rows
  let cache := cacheSet cache "draft_order" (.draftOrder draft_order0)
  match draft_order0.find? DraftPick.is_current with
  | none => { success := false, store := store, cache := cache, writes := [] }
  | some current_pick =>
    -- 2. verify it is the right team's turn
    if !(current_pick.team_id.eqInt team_id) || current_pick.owner_name != owner_name then
      { success := false, store := store, cache := cache, writes := [] }
    else
      -- 3. the player must exist and be available
      let all_players := parseAvailablePlayers store.available_rows
      let cache := cacheSet cache "available_players_all" (.availablePlayers all_players)
      match all_players.find? (fun p => p.player_id == player_id) with
      | none => { success := false, store := store, cache := cache, writes := [] }
      | some player =>
        if !player.is_available then
          { success := false, store := store, cache := cache, writes := [] }
        else
          -- 4. locate the player's sheet row in Available_Players!A2:A500
          match findRowByCol0 store.available_rows player_id with
          | none => { success := false, store := store, cache := cache, writes := [] }
          | some idx =>
            let player_row := idx + 2
            -- write: Available_Players!F{player_row} := "drafted"
            let avail2 := modifyRow store.available_rows (player_row - 2) (fun r => setCell r 5 "drafted")
            let store := { store with available_rows := avail2 }
            let w1 := WriteOp.updateAvailableStatus player_row "drafted"
            -- 5. append the new roster row to Rosters!A:I (RAW numbers as decimal strings)
            let roster_row := [toString team_id, current_week, player.position, player.player_name,
              player.nfl_team, "0", "0", "active", player.roster_eligibility]
            let store := { store with roster_rows := store.roster_rows ++ [roster_row] }
            let w2 := WriteOp.appendRosterRow roster_row
            -- 6. re-read the draft order, complete the current entry, mark the next one current
            let draft_order := parseDraftOrder store.draft_order_rows
            let cache := cacheSet cache "draft_order" (.draftOrder draft_order)
            let step6 :=
              match draft_order.findIdx? DraftPick.is_current with
              | none => (store, ([] : List WriteOp))
              | some oidx =>
                let pick_row := oidx + 2
                let order2 := modifyRow store.draft_order_rows (pick_row - 2)
                  (fun r => setCell (setCell (setCell r 4 "completed") 5 player_id) 6 player.player_name)
                let store := { store with draft_order_rows := order2 }
                let ws := [WriteOp.completeDraftOrderRow pick_row ["completed", player_id, player.player_name]]
                if oidx + 1 < draft_order.length then
                  let next_pick_row := oidx + 3
                  let order3 := modifyRow store.draft_order_rows (next_pick_row - 2) (fun r => setCell r 4 "current")
                  ({ store with draft_order_rows := order3 },
                    ws ++ [WriteOp.setDraftOrderCurrent next_pick_row])
                else (store, ws)
            let store := step6.1
            -- 7. advance the Draft_State counters
            let next_pick0 := draft_state.current_pick + 1
            let total_picks_per_round :=
              ((draft_order.filter (fun p => p.round.eqInt 1)).map (fun p => p.team_id)).dedup.length
            let advanced := next_pick0 > (total_picks_per_round : Int)
            let next_round := if advanced then draft_state.current_round + 1 else draft_state.current_round
            let next_pick := if advanced then 1 else next_pick0
            let state_values := [toString next_round, toString next_pick, "true",
              if next_round ≤ assumedTotalRounds then "false" else "true", now_iso]
            let store := { store with draft_state_rows := writeColumnB store.draft_state_rows 0 state_values }
            let w5 := WriteOp.writeDraftState state_values
            -- 8. clear the affected cache entries
            let cache := cachePop cache "available_players_all"
            let cache := cachePop cache ("available_players_" ++ player.position)
            let cache := cachePop cache "draft_state"
            let cache := cachePop cache "draft_order"
            let cache := cachePop cache ("roster_" ++ toString team_id)
            { success := true, store := store, cache := cache, writes := [w1, w2] ++ step6.2 ++ [w5] }

/-- Result of the roster scan in `drop_player`: the matching data row index,
no match, or a `ValueError` from `int(row[0])` escaping to the function's
exception handler. -/
inductive DropScan where
  | found (idx : Nat)
  | missing
  | error
deriving DecidableEq, Repr

/-- The roster scan of `drop_player` (sheets_client.py lines 1095-1106): find
the first row of at least 4 cells whose team id, week (case-insensitive)
and stripped player name match. -/
def dropScan (team_id : Int) (player_name current_week : String) : Nat → List (List String) → DropScan
  | _, [] => .missing
  | idx, row :: rest =>
    if row.length ≥ 4 then
      match (if cell row 0 == "" then some 0 else pythonInt (cell row 0)) with
      | none => .error
      | some row_team_id =>
        let row_week := pyTrim (cell row 1)
        let row_player_name := pyTrim (cell row 3)
        if row_team_id == team_id && pyLower row_week == pyLower current_week
            && row_player_name == player_name then
          .found idx
        else dropScan team_id player_name current_week (idx + 1) rest
    else dropScan team_id player_name current_week (idx + 1) rest

/-- `drop_player` (sheets_client.py lines 1077-1147): delete the week's
roster row, mark the player available again if present in
Available_Players, then evict the team roster and all-players entries. -/
def drop_player (store : Store) (cache : Cache) (team_id : Int) (player_name current_week : String) : MutResult :=
  match dropScan team_id player_name current_week 0 store.roster_rows with
  | .error => { success := false, store := store, cache := cache, writes := [] }
  | .missing => { success := false, store := store, cache := cache, writes := [] }
  | .found idx =>
    let player_row := idx + 2
    -- delete the Rosters row (deleteDimension over 0-based sheet rows)
    let store := { store with roster_rows := store.roster_rows.eraseIdx (player_row - 2) }
    let w1 := WriteOp.deleteRosterRow (player_row - 1) player_row
    -- mark the player available in Available_Players, if found by name
    let step2 :=
      match store.available_rows.findIdx? (fun row => row.length ≥ 2 && pyTrim (cell row 1) == player_name) with
      | none => (store, ([] : List WriteOp))
      | some aidx =>
        let available_row := aidx + 2
        let avail2 := modifyRow store.available_rows (available_row - 2) (fun r => setCell r 5 "available")
        ({ store with available_rows := avail2 }, [WriteOp.updateAvailableStatus available_row "available"])
    let store := step2.1
    let cache := cachePop cache ("roster_" ++ toString team_id)
    let cache := cachePop cache "available_players_all"
    { success := true, store := store, cache := cache, writes := [w1] ++ step2.2 }

/-- `add_player` (sheets_client.py lines 1149-1211): append the roster row,
mark the player drafted, then evict the team roster and all-players
entries. As in the source, `get_available_players(use_cache=False)`
refreshes the all-players cache entry before it is evicted. -/
def add_player (store : Store) (cache : Cache) (team_id : Int) (player_id current_week : String) : MutResult :=
  let all_players := parseAvailablePlayers store.available_rows
  let cache := cacheSet cache "available_players_all" (.availablePlayers all_players)
  match all_players.find? (fun p => p.player_id == player_id) with
  | none => { success := false, store := store, cache := cache, writes := [] }
  | some player =>
    if !player.is_available then
      { success := false, store := store, cache := cache, writes := [] }
    else
      let roster_row := [toString team_id, current_week, player.position, player.player_name,
        player.nfl_team, "0", "0", "active", player.roster_eligibility]
      let store := { store with roster_rows := store.roster_rows ++ [roster_row] }
      let w1 := WriteOp.appendRosterRow roster_row
      let step2 :=
        match findRowByCol0 store.available_rows player_id with
        | none => (store, ([] : List WriteOp))
        | some idx =>
          let player_row := idx + 2
          let avail2 := modifyRow store.available_rows (player_row - 2) (fun r => setCell r 5 "drafted")
          ({ store with available_rows := avail2 }, [WriteOp.updateAvailableStatus player_row "drafted"])
      let store := step2.1
      let cache := cachePop cache ("roster_" ++ toString team_id)
      let cache := cachePop cache "available_players_all"
      { success := true, store := store, cache := cache, writes := [w1] ++ step2.2 }

/-! ## Claim-side definitions

The definitions below are written from the words of the specification /
claims (not from the source); the theorems compare them with the embedded
code. -/

/-- Generic form of the candidate scan: assign the first not-yet-assigned
candidate satisfying `pred`, in list order. -/
def findAssignBy (pred : Player → Bool) : List Player → List Bool → Option (List Bool)
  | p :: ps, b :: bs =>
    if !b && pred p then some (true :: bs)
    else (findAssignBy pred ps bs).map (fun v => b :: v)
  | _, _ => none

/-- C2's claimed exact phase: process only the non-wildcard slots (neither
`FLEX` nor `SUPERFLEX`), in the order given, assigning the first
not-yet-assigned candidate whose eligibility set contains the slot name. -/
def claimedExactPhase (players : List Player) : List String → List String → List Bool → List String × List Bool
  | [], pending, flags => (pending, flags)
  | s :: rest, pending, flags =>
    if pyUpper s == "FLEX" || pyUpper s == "SUPERFLEX" then
      claimedExactPhase players rest pending flags
    else
      match findAssignBy (fun p => (p.get_eligible_positions.map pyUpper).contains (pyUpper s)) players flags with
      | some flags2 => claimedExactPhase players rest (pending.erase s) flags2
      | none => claimedExactPhase players rest pending flags

/-- C2's claimed wildcard phase for one wildcard kind: process each listed
wildcard slot, assigning the first not-yet-assigned candidate whose
position is in the wildcard's position set. -/
def claimedWildcardPhase (positions : List String) (players : List Player) :
    List String → List String → List Bool → List String × List Bool
  | [], pending, flags => (pending, flags)
  | ws :: rest, pending, flags =>
    match findAssignBy (fun p => positions.contains (pyUpper p.position)) players flags with
    | some flags2 => claimedWildcardPhase positions players rest (pending.erase ws) flags2
    | none => claimedWildcardPhase positions players rest pending flags

/-- The matching described by claim C2: exact phase over the non-wildcard
slots only, then the remaining `FLEX` slots (RB/WR/TE), then the
remaining `SUPERFLEX` slots (QB/RB/WR/TE). -/
def claimedMatching (players : List Player) (required : List String) : List String × List Bool :=
  let init := List.replicate players.length false
  let r1 := claimedExactPhase players required required init
  let flexes := r1.1.filter (fun s => pyUpper s == "FLEX")
  let r2 := claimedWildcardPhase ["RB", "WR", "TE"] players flexes r1.1 r1.2
  let superflexes := r2.1.filter (fun s => pyUpper s == "SUPERFLEX")
  claimedWildcardPhase ["QB", "RB", "WR", "TE"] players superflexes r2.1 r2.2

/-- The validation verdict over the claimed matching of C2 (same size checks
and verdict as the engine, only the phase structure differs). -/
def claimedValidate (roster_players : List Player) (required_positions : List String) : Bool :=
  if roster_players.length == 0 then true
  else if roster_players.length > required_positions.length then false
  else
    let r := claimedMatching roster_players required_positions
    if r.2.count true != roster_players.length then false
    else if roster_players.length == required_positions.length && r.1.length > 0 then false
    else true

/-- The amended exact phase (claim C2 corrected): process every non-`FLEX`
slot, `SUPERFLEX` included, a `SUPERFLEX` slot taking the first
not-yet-assigned candidate with position QB/RB/WR/TE and any other slot
the first candidate whose eligibility set contains the slot name. -/
def amendedExactPhase (players : List Player) : List String → List String → List Bool → List String × List Bool
  | [], pending, flags => (pending, flags)
  | s :: rest, pending, flags =>
    if pyUpper s == "FLEX" then amendedExactPhase players rest pending flags
    else
      match findAssignBy (fun p =>
          if pyUpper s == "SUPERFLEX" then ["QB", "RB", "WR", "TE"].contains (pyUpper p.position)
          else (p.get_eligible_positions.map pyUpper).contains (pyUpper s)) players flags with
      | some flags2 => amendedExactPhase players rest (pending.erase s) flags2
      | none => amendedExactPhase players rest pending flags

/-- The matching described by the amended claim C2: exact phase over all
non-`FLEX` slots in the order given, then the remaining `FLEX` slots
filled from the RB/WR/TE position set. -/
def amendedMatching (players : List Player) (required : List String) : List String × List Bool :=
  let init := List.replicate players.length false
  let r1 := amendedExactPhase players required required init
  let flexes := r1.1.filter (fun s => pyUpper s == "FLEX")
  claimedWildcardPhase ["RB", "WR", "TE"] players flexes r1.1 r1.2

/-- Claim C1's "every required slot got filled": the matching leaves no
pending slot. -/
def allSlotsFilled (cs : List Player) (rs : List String) : Prop :=
  (runMatching cs rs).1 = []

/-- Claim C1's "every candidate got assigned": the matching assigns every
candidate. -/
def allCandidatesAssigned (cs : List Player) (rs : List String) : Prop :=
  (runMatching cs rs).2.count true = cs.length

/-- The uppercased position of each candidate, in order. -/
def positionLabels (cs : List Player) : List String :=
  cs.map (fun p => pyUpper p.position)

/-- The uppercased required-slot names, in order. -/
def slotLabels (rs : List String) : List String :=
  rs.map pyUpper

/-- Claim C1's "one-to-one mapping from candidates to slots by exact position
equality": an injective label-preserving assignment of candidates to
slots, i.e. the candidate-position list is, up to permutation, a sublist
of the slot-name list. -/
def oneToOneByExactPosition (cs : List Player) (rs : List String) : Prop :=
  (positionLabels cs).Subperm (slotLabels rs)

/-- A required-slot list consisting only of concrete positions (no wildcard
slot names). -/
def concreteSlots (rs : List String) : Prop :=
  ∀ s ∈ rs, pyUpper s ≠ "FLEX" ∧ pyUpper s ≠ "SUPERFLEX"

/-- A candidate whose eligibility set names exactly its own position,
possibly together with the `FLEX` wildcard — what
`__post_init__` derives when the eligibility tag is blank. -/
def labelOnlyEligibility (p : Player) : Prop :=
  p.get_eligible_positions.map pyUpper = [pyUpper p.position]
    ∨ p.get_eligible_positions.map pyUpper = [pyUpper p.position, "FLEX"]

/-- The uppercased positions of the candidates still unassigned under a flag
vector, in candidate order. -/
def freeLabels (cs : List Player) (flags : List Bool) : List String :=
  ((cs.zip flags).filter (fun pb => !pb.2)).map (fun pb => pyUpper pb.1.position)

/-- The `Draft_State` writes among a mutation's remote writes. -/
def draftStateWrites (ws : List WriteOp) : List WriteOp :=
  ws.filter (fun w => match w with | .writeDraftState _ => true | _ => false)

/-- N successive real-time turn-state requests
(`get_all_draft_data(use_cache=True, force_fresh_draft_state=True)`), one
per store snapshot in the list, accumulating the remote fetches. -/
def runFreshTurnCalls : List Store → Cache → Cache × List FetchEv
  | [], cache => (cache, [])
  | s :: rest, cache =>
    let r := get_all_draft_data s cache true true
    let r2 := runFreshTurnCalls rest r.2.1
    (r2.1, r.2.2 ++ r2.2)

/-- The cached snapshot with only the draft-state and current-pick fields
replaced by the values freshly parsed from the store — what the two-tier
branch of C6 says the caller receives. -/
def refreshTurnData (snap : AllDraftData) (store : Store) : AllDraftData :=
  { snap with
    draft_state := parseDraftState store.draft_state_rows
    current_pick := (parseDraftOrder store.draft_order_rows).find? DraftPick.is_current }

/-- The batched full-table fetches in a fetch trace. -/
def batchFetches (evs : List FetchEv) : List FetchEv :=
  evs.filter (fun e => match e with | .batch _ => true | _ => false)

/-- The small single-range fetches in a fetch trace. -/
def smallFetches (evs : List FetchEv) : List FetchEv :=
  evs.filter (fun e => match e with | .small _ => true | _ => false)

/-- The back-off sleeps `2^a, 2^(a+1), ..., 2^(a+n-1)` of `n` retried
attempts starting at attempt number `a`. -/
def backoffs (a n : Nat) : List Nat :=
  (List.range n).map (fun i => 2 ^ (a + i))

/-- Every outcome in the list is a transient HTTP failure (rate-limited or
server error). -/
def allTransient {α : Type} (l : List (Outcome α)) : Bool :=
  l.all (fun o => match o with | .http st => transientStatus st | _ => false)

/-! ## Theorems -/

theorem backoffs_zero (a : Nat) : backoffs a 0 = [] := rfl

theorem backoffs_succ (a n : Nat) : backoffs a (n + 1) = 2 ^ a :: backoffs (a + 1) n := by
  simp only [backoffs, List.range_succ_eq_map, List.map_cons, List.map_map]
  congr 1
  all_goals simp
  all_goals intro i _
  all_goals omega

/-- C10: for every `Player` and `AvailablePlayer`, `can_fill_position` on
`"FLEX"` and `"SUPERFLEX"` depends only on the `position` field — whatever
the `roster_eligibility` tag says — and equals membership of the
uppercased position in RB/WR/TE resp. QB/RB/WR/TE. -/
theorem c10_wildcards_ignore_eligibility
    (pos nm tm st elig pid pnm ntm st2 elig2 : String) (bw : Int) :
    (Player.can_fill_position ⟨pos, nm, tm, st, elig⟩ "FLEX"
        = ["RB", "WR", "TE"].contains (pyUpper pos))
    ∧ (Player.can_fill_position ⟨pos, nm, tm, st, elig⟩ "SUPERFLEX"
        = ["QB", "RB", "WR", "TE"].contains (pyUpper pos))
    ∧ (AvailablePlayer.can_fill_position ⟨pid, pnm, pos, ntm, bw, st2, elig2⟩ "FLEX"
        = ["RB", "WR", "TE"].contains (pyUpper pos))
    ∧ (AvailablePlayer.can_fill_position ⟨pid, pnm, pos, ntm, bw, st2, elig2⟩ "SUPERFLEX"
        = ["QB", "RB", "WR", "TE"].contains (pyUpper pos)) := by
  refine ⟨?_, ?_, ?_, ?_⟩ <;> rfl

/-- C8: in the draft-state parse, `current_round` and `current_pick` each
default to 1 exactly on their own parse failure, and the two boolean
fields equal membership of their own lowered token in
`('true','1','yes')`, for every combination of raw fields — so malformed
numeric fields never alter the booleans. -/
theorem c8_draft_state_parse (r p s c t : String) :
    ((DraftState.mk_post r p s c t).draft_started = true
        ↔ (pyLower s = "true" ∨ pyLower s = "1" ∨ pyLower s = "yes"))
    ∧ ((DraftState.mk_post r p s c t).draft_complete = true
        ↔ (pyLower c = "true" ∨ pyLower c = "1" ∨ pyLower c = "yes"))
    ∧ (pythonInt r = none → (DraftState.mk_post r p s c t).current_round = 1)
    ∧ (pythonInt p = none → (DraftState.mk_post r p s c t).current_pick = 1)
    ∧ (∀ n, pythonInt r = some n → (DraftState.mk_post r p s c t).current_round = n)
    ∧ (∀ n, pythonInt p = some n → (DraftState.mk_post r p s c t).current_pick = n) := by
  refine ⟨?_, ?_, ?_, ?_, ?_, ?_⟩
  · simp [DraftState.mk_post, List.contains]
  · simp [DraftState.mk_post, List.contains]
  · intro h; simp [DraftState.mk_post, h]
  · intro h; simp [DraftState.mk_post, h]
  · intro n h; simp [DraftState.mk_post, h]
  · intro n h; simp [DraftState.mk_post, h]

/-- Witness for C8 at a concrete malformed-numeric input. -/
theorem c8_draft_state_parse_witness :
    pythonInt "abc" = none ∧ pythonInt "1.5" = none
    ∧ (DraftState.mk_post "abc" "1.5" "True" "no" "").current_round = 1
    ∧ (DraftState.mk_post "abc" "1.5" "True" "no" "").current_pick = 1
    ∧ (DraftState.mk_post "abc" "1.5" "True" "no" "").draft_started = true
    ∧ (DraftState.mk_post "abc" "1.5" "True" "no" "").draft_complete = false :=
  ⟨by decide, by decide,
    (c8_draft_state_parse "abc" "1.5" "True" "no" "").2.2.1 (by decide),
    (c8_draft_state_parse "abc" "1.5" "True" "no" "").2.2.2.1 (by decide),
    (c8_draft_state_parse "abc" "1.5" "True" "no" "").1.mpr (by decide),
    by
      have h := (c8_draft_state_parse "abc" "1.5" "True" "no" "").2.1
      revert h
      decide⟩

/-- C3: an empty candidate list validates as valid for every required-slot
list, and a candidate list strictly longer than the required-slot list is
rejected with the early size-check result — the pair built before the
matching phases run. -/
theorem c3_empty_and_overflow (cs : List Player) (rs : List String) :
    validate_roster_with_flex [] rs = (true, "Empty roster is valid during draft")
    ∧ (cs.length > rs.length →
        validate_roster_with_flex cs rs =
          (false, "Roster has too many players: " ++ toString cs.length
            ++ " > " ++ toString rs.length)) := by
  constructor
  · rfl
  · intro h
    have h0 : cs.length ≠ 0 := by omega
    simp [validate_roster_with_flex, h, h0]

/-- Witness for C3 at a concrete two-candidate, one-slot input. -/
theorem c3_empty_and_overflow_witness :
    ([⟨"QB", "A", "KC", "active", "QB"⟩, ⟨"RB", "B", "SF", "active", "RB/FLEX"⟩] : List Player).length
        > (["QB"] : List String).length
    ∧ validate_roster_with_flex
        [⟨"QB", "A", "KC", "active", "QB"⟩, ⟨"RB", "B", "SF", "active", "RB/FLEX"⟩] ["QB"]
        = (false, "Roster has too many players: 2 > 1") :=
  ⟨by decide,
    ((c3_empty_and_overflow
        [⟨"QB", "A", "KC", "active", "QB"⟩, ⟨"RB", "B", "SF", "active", "RB/FLEX"⟩] ["QB"]).2
      (by decide)).trans (by decide)⟩

/-- Counterexample to C1 as stated: one default QB candidate against the
concrete slot list `["QB", "RB"]` validates as valid, yet a required slot
goes unfilled and the candidate and slot counts differ — refuting both
the claimed verdict equivalence (its "every required slot got filled"
conjunct) and the claimed count-matching characterisation for
concrete-position slot lists. -/
theorem c1_counterexample :
    (validate_roster_with_flex [⟨"QB", "Q", "KC", "active", "QB"⟩] ["QB", "RB"]).1 = true
    ∧ ¬ allSlotsFilled [⟨"QB", "Q", "KC", "active", "QB"⟩] ["QB", "RB"]
    ∧ concreteSlots ["QB", "RB"]
    ∧ labelOnlyEligibility ⟨"QB", "Q", "KC", "active", "QB"⟩
    ∧ ([⟨"QB", "Q", "KC", "active", "QB"⟩] : List Player).length
        ≠ (["QB", "RB"] : List String).length := by
  refine ⟨by decide, ?_, ?_, ?_, by decide⟩
  · unfold allSlotsFilled; decide
  · unfold concreteSlots; decide
  · unfold labelOnlyEligibility; left; decide

/-- Counterexample to C2 as stated: with candidates `[RB, QB]` (default
eligibility) and slots `["FLEX", "SUPERFLEX"]`, the phase order described
by the claim (exact phase skips both wildcards; FLEX then SUPERFLEX
afterwards) accepts the roster, but the code rejects it — its exact phase
already processes the SUPERFLEX slot and gives it the RB. -/
theorem c2_counterexample :
    claimedValidate [⟨"RB", "R", "SF", "active", "RB/FLEX"⟩, ⟨"QB", "Q", "KC", "active", "QB"⟩]
        ["FLEX", "SUPERFLEX"] = true
    ∧ (validate_roster_with_flex [⟨"RB", "R", "SF", "active", "RB/FLEX"⟩, ⟨"QB", "Q", "KC", "active", "QB"⟩]
        ["FLEX", "SUPERFLEX"]).1 = false := by
  constructor <;> decide

theorem retryFetch_empty {α : Type} (empty : α) (a : Nat) :
    retryFetch empty a [] = (.value empty, []) := rfl

theorem retryFetch_cons_transient {α : Type} (empty : α) (st : Nat) (rest : List (Outcome α))
    (a : Nat) (h : transientStatus st = true) :
    retryFetch empty a (.http st :: rest)
      = ((retryFetch empty (a + 1) rest).1, 2 ^ a :: (retryFetch empty (a + 1) rest).2) := by
  simp [retryFetch, h]

/-- Running the retry loop past a prefix of transient failures: each one
sleeps its exponential back-off and the loop continues at the next
attempt number. -/
theorem retryFetch_past_transients {α : Type} (empty : α) (nxt : Outcome α) (rest : List (Outcome α)) :
    ∀ (pre : List (Outcome α)) (a : Nat), allTransient pre = true →
      retryFetch empty a (pre ++ nxt :: rest)
        = ((retryFetch empty (a + pre.length) (nxt :: rest)).1,
            backoffs a pre.length ++ (retryFetch empty (a + pre.length) (nxt :: rest)).2)
  | [], a, _ => by simp [backoffs]
  | o :: pre', a, h => by
    have hall : allTransient pre' = true := by
      simp only [allTransient, List.all_cons, Bool.and_eq_true] at h
      exact h.2
    have hhead := h
    simp only [allTransient, List.all_cons, Bool.and_eq_true] at hhead
    match o, hhead.1 with
    | .http st, htr =>
      have htr2 : transientStatus st = true := htr
      have ih := retryFetch_past_transients empty nxt rest pre' (a + 1) hall
      rw [List.cons_append, retryFetch_cons_transient empty st _ a htr2, ih]
      simp only [List.length_cons, backoffs_succ, List.cons_append]
      have harith : a + (pre'.length + 1) = a + 1 + pre'.length := by omega
      rw [harith]

/-- All attempts transiently failing: the loop sleeps through every back-off
and then returns the empty default — no failure is propagated. -/
theorem retryFetch_all_transient {α : Type} (empty : α) :
    ∀ (attempts : List (Outcome α)) (a : Nat), allTransient attempts = true →
      retryFetch empty a attempts = (.value empty, backoffs a attempts.length)
  | [], a, _ => by simp [retryFetch, backoffs]
  | o :: rest, a, h => by
    have hall : allTransient rest = true := by
      simp only [allTransient, List.all_cons, Bool.and_eq_true] at h
      exact h.2
    have hhead := h
    simp only [allTransient, List.all_cons, Bool.and_eq_true] at hhead
    match o, hhead.1 with
    | .http st, htr =>
      have htr2 : transientStatus st = true := htr
      have ih := retryFetch_all_transient empty rest (a + 1) hall
      rw [retryFetch_cons_transient empty st rest a htr2, ih]
      simp only [List.length_cons, backoffs_succ]

/-- C5 (amended): for both `_get_range` and `_batch_get_ranges`, transient
failures (rate-limited or server error) are retried up to the attempt
bound with exponential back-off of `2^attempt` seconds, and a
non-transient HTTP error propagates immediately with no retry; but when
the bound is exhausted by transient failures the loop returns the empty
result (`[]` / `{}`) to the caller instead of propagating the failure. -/
theorem c5_retry_policy
    (attempts1 pre1 rest1 : List (Outcome (List (List String))))
    (attempts2 pre2 rest2 : List (Outcome (List (String × List (List String)))))
    (s1 s2 : Nat) (v1 : List (List String)) (v2 : List (String × List (List String))) :
    (allTransient attempts1 = true →
        get_range_retry attempts1 = (.value [], backoffs 0 attempts1.length))
    ∧ (allTransient pre1 = true → transientStatus s1 = false →
        get_range_retry (pre1 ++ .http s1 :: rest1) = (.raised, backoffs 0 pre1.length))
    ∧ (allTransient pre1 = true →
        get_range_retry (pre1 ++ .ok v1 :: rest1) = (.value v1, backoffs 0 pre1.length))
    ∧ (allTransient attempts2 = true →
        batch_get_ranges_retry attempts2 = (.value [], backoffs 0 attempts2.length))
    ∧ (allTransient pre2 = true → transientStatus s2 = false →
        batch_get_ranges_retry (pre2 ++ .http s2 :: rest2) = (.raised, backoffs 0 pre2.length))
    ∧ (allTransient pre2 = true →
        batch_get_ranges_retry (pre2 ++ .ok v2 :: rest2) = (.value v2, backoffs 0 pre2.length)) := by
  refine ⟨?_, ?_, ?_, ?_, ?_, ?_⟩
  · intro h
    exact retryFetch_all_transient [] attempts1 0 h
  · intro h hs
    rw [get_range_retry, retryFetch_past_transients [] _ rest1 pre1 0 h]
    simp [retryFetch, hs]
  · intro h
    rw [get_range_retry, retryFetch_past_transients [] _ rest1 pre1 0 h]
    simp [retryFetch]
  · intro h
    exact retryFetch_all_transient [] attempts2 0 h
  · intro h hs
    rw [batch_get_ranges_retry, retryFetch_past_transients [] _ rest2 pre2 0 h]
    simp [retryFetch, hs]
  · intro h
    rw [batch_get_ranges_retry, retryFetch_past_transients [] _ rest2 pre2 0 h]
    simp [retryFetch]

/-- Witness for C5 at concrete attempt sequences (default bound 3). -/
theorem c5_retry_policy_witness :
    get_range_retry [.http 429, .http 429, .http 429] = (.value [], [1, 2, 4])
    ∧ get_range_retry [.http 503, .http 403, .exn] = (.raised, [1])
    ∧ get_range_retry [.http 500, .ok [["a"]], .http 429] = (.value [["a"]], [1])
    ∧ batch_get_ranges_retry [.http 429, .http 500, .http 503] = (.value [], [1, 2, 4]) := by
  refine ⟨?_, ?_, ?_, ?_⟩
  · exact ((c5_retry_policy [.http 429, .http 429, .http 429] [] [] [] [] [] 0 0 [] []).1
      (by decide)).trans (by decide)
  · exact ((c5_retry_policy [] [.http 503] [.exn] [] [] [] 403 0 [] []).2.1
      (by decide) (by decide)).trans (by decide)
  · exact ((c5_retry_policy [] [.http 500] [.http 429] [] [] [] 0 0 [["a"]] []).2.2.1
      (by decide)).trans (by decide)
  · exact ((c5_retry_policy [] [] [] [.http 429, .http 500, .http 503] [] [] 0 0 [] []).2.2.2.1
      (by decide)).trans (by decide)

/-- Counterexample to C5 as stated: three transient failures under the
default bound of 3 do not propagate any failure — the call returns
normally with an empty row list (after back-offs 1, 2, 4 seconds). -/
theorem c5_counterexample :
    get_range_retry [.http 429, .http 429, .http 429] = (.value [], [1, 2, 4])
    ∧ (RetryResult.value ([] : List (List String)) ≠ .raised) := by
  constructor <;> decide

/-- A successful candidate scan preserves the flag-vector length and assigns
exactly one more candidate. -/
theorem findAssign_some_facts (s : String) :
    ∀ (ps : List Player) (bs bs2 : List Bool), findAssign s ps bs = some bs2 →
      bs2.length = bs.length ∧ bs2.count true = bs.count true + 1
  | [], bs, bs2, h => by simp [findAssign] at h
  | p :: ps, [], bs2, h => by simp [findAssign] at h
  | p :: ps, b :: bs, bs2, h => by
    simp only [findAssign] at h
    by_cases hb : (!b && p.can_fill_position s) = true
    · rw [if_pos hb] at h
      have hbfalse : b = false := by
        cases b
        · rfl
        · simp at hb
      cases h
      subst hbfalse
      refine ⟨by simp, ?_⟩
      simp [List.count_cons]
    · rw [if_neg hb, Option.map_eq_some'] at h
      obtain ⟨v, hv, hbv⟩ := h
      obtain ⟨hl, hc⟩ := findAssign_some_facts s ps bs v hv
      subst hbv
      refine ⟨by simp [hl], ?_⟩
      simp only [List.count_cons, hc]
      omega

/-- Phase-1 bookkeeping: every assignment erases one pending slot and flags
one candidate, so `pending + assigned` is invariant (as long as each slot
value occurs in the pending list at least as often as in the remaining
slot list, which the initial call trivially satisfies). -/
theorem phase1_len (players : List Player) :
    ∀ (slots pending : List String) (flags : List Bool),
      (∀ v : String, slots.count v ≤ pending.count v) →
      (phase1 players slots pending flags).1.length + (phase1 players slots pending flags).2.count true
        = pending.length + flags.count true
  | [], _, _, _ => by simp [phase1]
  | s :: rest, pending, flags, h => by
    have hsub : ∀ v : String, rest.count v ≤ pending.count v := by
      intro v
      have hv := h v
      rw [List.count_cons] at hv
      omega
    by_cases hf : (pyUpper s == "FLEX") = true
    · simp only [phase1, hf, if_true]
      exact phase1_len players rest pending flags hsub
    · have hfff : (pyUpper s == "FLEX") = false := by simpa using hf
      cases hfa : findAssign s players flags with
      | none =>
        simp only [phase1, hfff, Bool.false_eq_true, if_false, hfa]
        exact phase1_len players rest pending flags hsub
      | some flags2 =>
        obtain ⟨hflen, hfcnt⟩ := findAssign_some_facts s players flags flags2 hfa
        have hmem : s ∈ pending := by
          have hv := h s
          rw [List.count_cons] at hv
          simp only [BEq.refl, if_true] at hv
          exact List.count_pos_iff.1 (by omega)
        have hsub2 : ∀ v : String, rest.count v ≤ (pending.erase s).count v := by
          intro v
          rw [List.count_erase]
          have hv := h v
          rw [List.count_cons] at hv
          by_cases hsv : (s == v) = true
          · simp only [hsv, if_true] at hv ⊢
            omega
          · simp only [hsv, if_false] at hv ⊢
            omega
        have ihl := phase1_len players rest (pending.erase s) flags2 hsub2
        have herase : (pending.erase s).length = pending.length - 1 := List.length_erase_of_mem hmem
        have hpos : 0 < pending.length := List.length_pos_of_mem hmem
        simp only [phase1, hfff, Bool.false_eq_true, if_false, hfa]
        omega

/-- Phase-2 bookkeeping, same invariant. -/
theorem phase2_len (players : List Player) :
    ∀ (slots pending : List String) (flags : List Bool),
      (∀ v : String, slots.count v ≤ pending.count v) →
      (phase2 players slots pending flags).1.length + (phase2 players slots pending flags).2.count true
        = pending.length + flags.count true
  | [], _, _, _ => by simp [phase2]
  | fs :: rest, pending, flags, h => by
    have hsub : ∀ v : String, rest.count v ≤ pending.count v := by
      intro v
      have hv := h v
      rw [List.count_cons] at hv
      omega
    cases hfa : findAssign "FLEX" players flags with
    | none =>
      simp only [phase2, hfa]
      exact phase2_len players rest pending flags hsub
    | some flags2 =>
      obtain ⟨hflen, hfcnt⟩ := findAssign_some_facts "FLEX" players flags flags2 hfa
      have hmem : fs ∈ pending := by
        have hv := h fs
        rw [List.count_cons] at hv
        simp only [BEq.refl, if_true] at hv
        exact List.count_pos_iff.1 (by omega)
      have hsub2 : ∀ v : String, rest.count v ≤ (pending.erase fs).count v := by
        intro v
        rw [List.count_erase]
        have hv := h v
        rw [List.count_cons] at hv
        by_cases hsv : (fs == v) = true
        · simp only [hsv, if_true] at hv ⊢
          omega
        · simp only [hsv, if_false] at hv ⊢
          omega
      have ihl := phase2_len players rest (pending.erase fs) flags2 hsub2
      have herase : (pending.erase fs).length = pending.length - 1 := List.length_erase_of_mem hmem
      have hpos : 0 < pending.length := List.length_pos_of_mem hmem
      simp only [phase2, hfa]
      omega

/-- Over the whole matching, pending slots plus assigned candidates equal the
required-slot count. -/
theorem runMatching_len (cs : List Player) (rs : List String) :
    (runMatching cs rs).1.length + (runMatching cs rs).2.count true = rs.length := by
  have h1 := phase1_len cs rs rs (List.replicate cs.length false) (fun v => le_refl _)
  have hsub : ∀ v : String,
      ((phase1 cs rs rs (List.replicate cs.length false)).1.filter
        (fun s => pyUpper s == "FLEX")).count v
        ≤ (phase1 cs rs rs (List.replicate cs.length false)).1.count v :=
    fun v => (List.filter_sublist _).count_le v
  have h2 := phase2_len cs
    ((phase1 cs rs rs (List.replicate cs.length false)).1.filter (fun s => pyUpper s == "FLEX"))
    (phase1 cs rs rs (List.replicate cs.length false)).1
    (phase1 cs rs rs (List.replicate cs.length false)).2 hsub
  have hrep : (List.replicate cs.length false).count true = 0 := by
    simp [List.count_replicate]
  show (phase2 cs
      ((phase1 cs rs rs (List.replicate cs.length false)).1.filter (fun s => pyUpper s == "FLEX"))
      (phase1 cs rs rs (List.replicate cs.length false)).1
      (phase1 cs rs rs (List.replicate cs.length false)).2).1.length
    + ((phase2 cs
      ((phase1 cs rs rs (List.replicate cs.length false)).1.filter (fun s => pyUpper s == "FLEX"))
      (phase1 cs rs rs (List.replicate cs.length false)).1
      (phase1 cs rs rs (List.replicate cs.length false)).2).2.count true) = rs.length
  omega

/-- The verdict of `validate_roster_with_flex`: valid exactly when the
candidate list is empty, or it fits within the slot count and the greedy
matching assigned every candidate. (The "complete roster missing
positions" check can never fire on its own: when all candidates are
assigned and the counts are equal, the pending list is forced empty by
`runMatching_len`.) -/
theorem validate_verdict (cs : List Player) (rs : List String) :
    (validate_roster_with_flex cs rs).1 = true ↔
      (cs = [] ∨ (cs.length ≤ rs.length ∧ (runMatching cs rs).2.count true = cs.length)) := by
  have hrm := runMatching_len cs rs
  by_cases h0 : cs.length = 0
  · have hnil : cs = [] := List.length_eq_zero.1 h0
    subst hnil
    simp [validate_roster_with_flex]
  · by_cases hgt : cs.length > rs.length
    · have hfalse : (validate_roster_with_flex cs rs).1 = false := by
        simp only [validate_roster_with_flex]
        rw [if_neg (by simpa using h0), if_pos hgt]
      rw [hfalse]
      simp only [Bool.false_eq_true, false_iff]
      intro hor
      rcases hor with rfl | ⟨hle, _⟩
      · exact h0 rfl
      · omega
    · have hle : cs.length ≤ rs.length := by omega
      simp only [validate_roster_with_flex]
      rw [if_neg (by simpa using h0), if_neg hgt]
      by_cases hcnt : (runMatching cs rs).2.count true = cs.length
      · rw [if_neg (by simpa using hcnt)]
        by_cases heq : cs.length = rs.length
        · have hpend : ¬((runMatching cs rs).1.length > 0) := by omega
          rw [if_neg (by simp [hpend])]
          simpa using Or.inr ⟨hle, hcnt⟩
        · rw [if_neg (by simp [heq])]
          simpa using Or.inr ⟨hle, hcnt⟩
      · rw [if_pos (by simpa using hcnt)]
        simp only [Bool.false_eq_true, false_iff]
        intro hor
        rcases hor with rfl | ⟨_, hc⟩
        · exact h0 rfl
        · exact hcnt hc

theorem phase1_flags_length (players : List Player) :
    ∀ (slots pending : List String) (flags : List Bool),
      (phase1 players slots pending flags).2.length = flags.length
  | [], _, _ => rfl
  | s :: rest, pending, flags => by
    by_cases hf : (pyUpper s == "FLEX") = true
    · simp only [phase1, hf, if_true]
      exact phase1_flags_length players rest pending flags
    · have hfff : (pyUpper s == "FLEX") = false := by simpa using hf
      cases hfa : findAssign s players flags with
      | none =>
        simp only [phase1, hfff, Bool.false_eq_true, if_false, hfa]
        exact phase1_flags_length players rest pending flags
      | some flags2 =>
        simp only [phase1, hfff, Bool.false_eq_true, if_false, hfa]
        rw [phase1_flags_length players rest (pending.erase s) flags2]
        exact (findAssign_some_facts s players flags flags2 hfa).1

theorem phase2_flags_length (players : List Player) :
    ∀ (slots pending : List String) (flags : List Bool),
      (phase2 players slots pending flags).2.length = flags.length
  | [], _, _ => rfl
  | fs :: rest, pending, flags => by
    cases hfa : findAssign "FLEX" players flags with
    | none =>
      simp only [phase2, hfa]
      exact phase2_flags_length players rest pending flags
    | some flags2 =>
      simp only [phase2, hfa]
      rw [phase2_flags_length players rest (pending.erase fs) flags2]
      exact (findAssign_some_facts "FLEX" players flags flags2 hfa).1

theorem runMatching_flags_length (cs : List Player) (rs : List String) :
    (runMatching cs rs).2.length = cs.length := by
  show (phase2 cs
      ((phase1 cs rs rs (List.replicate cs.length false)).1.filter (fun s => pyUpper s == "FLEX"))
      (phase1 cs rs rs (List.replicate cs.length false)).1
      (phase1 cs rs rs (List.replicate cs.length false)).2).2.length = cs.length
  rw [phase2_flags_length, phase1_flags_length, List.length_replicate]

theorem phase1_pending_sublist (players : List Player) :
    ∀ (slots pending : List String) (flags : List Bool),
      (phase1 players slots pending flags).1.Sublist pending
  | [], _, _ => List.Sublist.refl _
  | s :: rest, pending, flags => by
    by_cases hf : (pyUpper s == "FLEX") = true
    · simp only [phase1, hf, if_true]
      exact phase1_pending_sublist players rest pending flags
    · have hfff : (pyUpper s == "FLEX") = false := by simpa using hf
      cases hfa : findAssign s players flags with
      | none =>
        simp only [phase1, hfff, Bool.false_eq_true, if_false, hfa]
        exact phase1_pending_sublist players rest pending flags
      | some flags2 =>
        simp only [phase1, hfff, Bool.false_eq_true, if_false, hfa]
        exact (phase1_pending_sublist players rest (pending.erase s) flags2).trans
          (List.erase_sublist s pending)

/-- Under a concrete slot name and a default-derived eligibility set,
`can_fill_position` is exact position equality. -/
theorem can_fill_label (p : Player) (s : String) (hs1 : pyUpper s ≠ "FLEX")
    (hs2 : pyUpper s ≠ "SUPERFLEX") (hp : labelOnlyEligibility p) :
    p.can_fill_position s = (pyUpper s == pyUpper p.position) := by
  unfold Player.can_fill_position
  rw [if_neg (by simpa using hs2), if_neg (by simpa using hs1)]
  have hdb : ∀ a b : String, decide (a = b) = (a == b) := by
    intro a b
    by_cases hab : a = b
    · simp [hab]
    · simp [hab, beq_eq_false_iff_ne.2 hab]
  rcases hp with h | h
  · rw [h]
    simp [List.contains, hdb]
  · rw [h]
    simp [List.contains, hs1, hdb]

theorem findAssign_freeLabels_some (s : String) (hs1 : pyUpper s ≠ "FLEX")
    (hs2 : pyUpper s ≠ "SUPERFLEX") :
    ∀ (cs : List Player) (flags flags2 : List Bool),
      (∀ p ∈ cs, labelOnlyEligibility p) →
      findAssign s cs flags = some flags2 →
      freeLabels cs flags2 = (freeLabels cs flags).erase (pyUpper s)
  | [], flags, flags2, _, h => by simp [findAssign] at h
  | p :: ps, [], flags2, _, h => by simp [findAssign] at h
  | p :: ps, b :: bs, flags2, hel, h => by
    have hp := hel p (List.mem_cons_self p ps)
    have hcan := can_fill_label p s hs1 hs2 hp
    have hel2 : ∀ q ∈ ps, labelOnlyEligibility q := fun q hq => hel q (List.mem_cons_of_mem p hq)
    simp only [findAssign, hcan] at h
    cases b with
    | true =>
      simp only [Bool.not_true, Bool.false_and, Bool.false_eq_true, if_false,
        Option.map_eq_some'] at h
      obtain ⟨v, hv, hbv⟩ := h
      subst hbv
      show freeLabels (p :: ps) (true :: v) = (freeLabels (p :: ps) (true :: bs)).erase (pyUpper s)
      simp only [freeLabels, List.zip_cons_cons, List.filter_cons, Bool.not_true,
        Bool.false_eq_true, if_false]
      exact findAssign_freeLabels_some s hs1 hs2 ps bs v hel2 hv
    | false =>
      by_cases heq : (pyUpper s == pyUpper p.position) = true
      · simp only [Bool.not_false, Bool.true_and, heq, if_true] at h
        cases h
        have heq2 : pyUpper s = pyUpper p.position := by simpa using heq
        show freeLabels (p :: ps) (true :: bs) = (freeLabels (p :: ps) (false :: bs)).erase (pyUpper s)
        simp only [freeLabels, List.zip_cons_cons, List.filter_cons, Bool.not_true, Bool.not_false,
          Bool.false_eq_true, if_false, if_true, List.map_cons]
        rw [heq2, List.erase_cons_head]
      · have heq2 : (pyUpper s == pyUpper p.position) = false := by simpa using heq
        simp only [Bool.not_false, Bool.true_and, heq2, Bool.false_eq_true, if_false,
          Option.map_eq_some'] at h
        obtain ⟨v, hv, hbv⟩ := h
        subst hbv
        show freeLabels (p :: ps) (false :: v) = (freeLabels (p :: ps) (false :: bs)).erase (pyUpper s)
        simp only [freeLabels, List.zip_cons_cons, List.filter_cons, Bool.not_false, if_true,
          List.map_cons]
        rw [List.erase_cons_tail]
        · exact congrArg _ (findAssign_freeLabels_some s hs1 hs2 ps bs v hel2 hv)
        · simpa using fun hx => heq (by simp [hx])

theorem findAssign_freeLabels_none (s : String) (hs1 : pyUpper s ≠ "FLEX")
    (hs2 : pyUpper s ≠ "SUPERFLEX") :
    ∀ (cs : List Player) (flags : List Bool),
      (∀ p ∈ cs, labelOnlyEligibility p) →
      findAssign s cs flags = none →
      pyUpper s ∉ freeLabels cs flags
  | [], flags, _, _ => by simp [freeLabels]
  | p :: ps, [], _, _ => by simp [freeLabels]
  | p :: ps, b :: bs, hel, h => by
    have hp := hel p (List.mem_cons_self p ps)
    have hcan := can_fill_label p s hs1 hs2 hp
    have hel2 : ∀ q ∈ ps, labelOnlyEligibility q := fun q hq => hel q (List.mem_cons_of_mem p hq)
    simp only [findAssign, hcan] at h
    cases b with
    | true =>
      simp only [Bool.not_true, Bool.false_and, Bool.false_eq_true, if_false,
        Option.map_eq_none'] at h
      have ih := findAssign_freeLabels_none s hs1 hs2 ps bs hel2 h
      simpa only [freeLabels, List.zip_cons_cons, List.filter_cons, Bool.not_true,
        Bool.false_eq_true, if_false] using ih
    | false =>
      by_cases heq : (pyUpper s == pyUpper p.position) = true
      · simp only [Bool.not_false, Bool.true_and, heq, if_true] at h
        exact absurd h (by simp)
      · have heq2 : (pyUpper s == pyUpper p.position) = false := by simpa using heq
        simp only [Bool.not_false, Bool.true_and, heq2, Bool.false_eq_true, if_false,
          Option.map_eq_none'] at h
        have ih := findAssign_freeLabels_none s hs1 hs2 ps bs hel2 h
        simp only [freeLabels, List.zip_cons_cons, List.filter_cons, Bool.not_false, if_true,
          List.map_cons, List.mem_cons]
        intro hor
        rcases hor with heqq | hmem
        · exact absurd (by simp [heqq]) (by simp [heq2] : ¬(pyUpper s == pyUpper p.position) = true)
        · exact ih hmem

/-- Over concrete slots and default-derived eligibility sets, phase 1 acts
on the unassigned-label list by erasing one occurrence of each slot
label in turn — that is, by `List.diff`. -/
theorem phase1_freeLabels (cs : List Player) (hel : ∀ p ∈ cs, labelOnlyEligibility p) :
    ∀ (slots pending : List String) (flags : List Bool),
      (∀ s ∈ slots, pyUpper s ≠ "FLEX" ∧ pyUpper s ≠ "SUPERFLEX") →
      freeLabels cs (phase1 cs slots pending flags).2
        = (freeLabels cs flags).diff (slots.map pyUpper)
  | [], _, _, _ => by simp [phase1]
  | s :: rest, pending, flags, hconc => by
    obtain ⟨hs1, hs2⟩ := hconc s (List.mem_cons_self s rest)
    have hconc2 : ∀ t ∈ rest, pyUpper t ≠ "FLEX" ∧ pyUpper t ≠ "SUPERFLEX" :=
      fun t ht => hconc t (List.mem_cons_of_mem s ht)
    have hfff : (pyUpper s == "FLEX") = false := by simpa using hs1
    cases hfa : findAssign s cs flags with
    | none =>
      have hnot := findAssign_freeLabels_none s hs1 hs2 cs flags hel hfa
      simp only [phase1, hfff, Bool.false_eq_true, if_false, hfa, List.map_cons, List.diff_cons]
      rw [phase1_freeLabels cs hel rest pending flags hconc2, List.erase_of_not_mem hnot]
    | some flags2 =>
      have hsome := findAssign_freeLabels_some s hs1 hs2 cs flags flags2 hel hfa
      simp only [phase1, hfff, Bool.false_eq_true, if_false, hfa, List.map_cons, List.diff_cons]
      rw [phase1_freeLabels cs hel rest (pending.erase s) flags2 hconc2, hsome]

theorem freeLabels_length (cs : List Player) :
    ∀ (flags : List Bool), flags.length = cs.length →
      (freeLabels cs flags).length = cs.length - flags.count true := by
  induction cs with
  | nil =>
    intro flags h
    have : flags = [] := List.length_eq_zero.1 (by simpa using h)
    subst this
    simp [freeLabels]
  | cons p ps ih =>
    intro flags h
    cases flags with
    | nil => simp at h
    | cons b bs =>
      have hlen : bs.length = ps.length := by simpa using h
      cases b with
      | true =>
        have := ih bs hlen
        simp only [freeLabels, List.zip_cons_cons, List.filter_cons, Bool.not_true,
          Bool.false_eq_true, if_false] at this ⊢
        rw [this]
        simp [List.count_cons]
      | false =>
        have := ih bs hlen
        have hcle := List.count_le_length true bs
        simp only [freeLabels, List.zip_cons_cons, List.filter_cons, Bool.not_false, if_true,
          List.map_cons, List.length_cons] at this ⊢
        rw [this]
        simp [List.count_cons]
        omega

theorem freeLabels_replicate (cs : List Player) :
    freeLabels cs (List.replicate cs.length false) = positionLabels cs := by
  induction cs with
  | nil => simp [freeLabels, positionLabels]
  | cons p ps ih =>
    simp only [positionLabels, List.map_cons]
    simp only [List.length_cons, List.replicate_succ, freeLabels, List.zip_cons_cons,
      List.filter_cons, Bool.not_false, if_true, List.map_cons] at *
    rw [ih]
    rfl

theorem diff_eq_nil_iff_subperm (l s : List String) : l.diff s = [] ↔ l.Subperm s := by
  constructor
  · intro h
    have hms : ((l : Multiset String) - (s : Multiset String)) = 0 := by
      rw [Multiset.coe_sub, h]
      rfl
    exact Multiset.coe_le.1 (tsub_eq_zero_iff_le.1 hms)
  · intro h
    have hms : ((l : Multiset String) - (s : Multiset String)) = 0 :=
      tsub_eq_zero_iff_le.2 (Multiset.coe_le.2 h)
    rw [Multiset.coe_sub] at hms
    exact (Multiset.coe_eq_zero _).1 hms

/-- C1 (amended): the verdict is valid iff the candidate list is empty, or
the candidate count does not exceed the slot count and every candidate got
assigned; "every required slot got filled" holds automatically (and only
needs to hold) when the candidate and slot counts are equal. For
required-slot lists of concrete positions and candidates with
default-derived eligibility sets, validation succeeds iff there is a
one-to-one mapping from candidates to slots by exact position equality —
the candidate count may be smaller than the slot count. -/
theorem c1_roster_validation (cs : List Player) (rs : List String) :
    ((validate_roster_with_flex cs rs).1 = true ↔
      (cs = [] ∨ (cs.length ≤ rs.length ∧ allCandidatesAssigned cs rs)))
    ∧ ((validate_roster_with_flex cs rs).1 = true → cs.length = rs.length → allSlotsFilled cs rs)
    ∧ (concreteSlots rs → (∀ p ∈ cs, labelOnlyEligibility p) →
        ((validate_roster_with_flex cs rs).1 = true ↔ oneToOneByExactPosition cs rs)) := by
  refine ⟨validate_verdict cs rs, ?_, ?_⟩
  · intro hv heq
    have hor := (validate_verdict cs rs).1 hv
    have hcnt : (runMatching cs rs).2.count true = cs.length := by
      rcases hor with rfl | ⟨_, hc⟩
      · have hcle := List.count_le_length true (runMatching ([] : List Player) rs).2
        rw [runMatching_flags_length] at hcle
        simpa using hcle
      · exact hc
    have hrm := runMatching_len cs rs
    unfold allSlotsFilled
    exact List.length_eq_zero.1 (by omega)
  · intro hconc hel
    have hflex : (phase1 cs rs rs (List.replicate cs.length false)).1.filter
        (fun s => pyUpper s == "FLEX") = [] := by
      rw [List.filter_eq_nil_iff]
      intro x hx
      have hxrs : x ∈ rs :=
        (phase1_pending_sublist cs rs rs (List.replicate cs.length false)).subset hx
      simpa using (hconc x hxrs).1
    have hrun2 : (runMatching cs rs).2 = (phase1 cs rs rs (List.replicate cs.length false)).2 := by
      show (phase2 cs
          ((phase1 cs rs rs (List.replicate cs.length false)).1.filter (fun s => pyUpper s == "FLEX"))
          (phase1 cs rs rs (List.replicate cs.length false)).1
          (phase1 cs rs rs (List.replicate cs.length false)).2).2 = _
      rw [hflex]
      simp [phase2]
    have hfl : freeLabels cs (runMatching cs rs).2 = (positionLabels cs).diff (slotLabels rs) := by
      rw [hrun2, phase1_freeLabels cs hel rs rs _ hconc, freeLabels_replicate]
      rfl
    have hlen2 : (runMatching cs rs).2.length = cs.length := runMatching_flags_length cs rs
    have hfll := freeLabels_length cs (runMatching cs rs).2 hlen2
    have hcle := List.count_le_length true (runMatching cs rs).2
    rw [hlen2] at hcle
    have hiff : (runMatching cs rs).2.count true = cs.length ↔ oneToOneByExactPosition cs rs := by
      unfold oneToOneByExactPosition
      rw [← diff_eq_nil_iff_subperm, ← hfl]
      constructor
      · intro hc
        exact List.length_eq_zero.1 (by omega)
      · intro hnil
        rw [hnil] at hfll
        simp only [List.length_nil] at hfll
        omega
    constructor
    · intro hv
      rcases (validate_verdict cs rs).1 hv with rfl | ⟨_, hc⟩
      · exact List.nil_subperm
      · exact hiff.1 hc
    · intro hsub
      apply (validate_verdict cs rs).2
      by_cases hnil : cs = []
      · exact Or.inl hnil
      · refine Or.inr ⟨?_, hiff.2 hsub⟩
        have hll := List.Subperm.length_le hsub
        simpa [positionLabels, slotLabels] using hll

/-- Witness for C1 (amended) at a one-QB roster against `["QB"]`. -/
theorem c1_roster_validation_witness :
    ((validate_roster_with_flex [⟨"QB", "Q", "KC", "active", "QB"⟩] ["QB"]).1 = true)
    ∧ allSlotsFilled [⟨"QB", "Q", "KC", "active", "QB"⟩] ["QB"]
    ∧ oneToOneByExactPosition [⟨"QB", "Q", "KC", "active", "QB"⟩] ["QB"] := by
  have hconc : concreteSlots ["QB"] := by unfold concreteSlots; decide
  have hel : ∀ p ∈ [(⟨"QB", "Q", "KC", "active", "QB"⟩ : Player)], labelOnlyEligibility p := by
    intro p hp
    simp only [List.mem_singleton] at hp
    subst hp
    unfold labelOnlyEligibility
    left
    decide
  have hv : (validate_roster_with_flex [⟨"QB", "Q", "KC", "active", "QB"⟩] ["QB"]).1 = true := by
    decide
  refine ⟨hv, ?_, ?_⟩
  · exact (c1_roster_validation [⟨"QB", "Q", "KC", "active", "QB"⟩] ["QB"]).2.1 hv (by decide)
  · exact ((c1_roster_validation [⟨"QB", "Q", "KC", "active", "QB"⟩] ["QB"]).2.2 hconc hel).1 hv

theorem findAssignBy_congr (pred : Player → Bool) (s : String)
    (h : ∀ p, pred p = p.can_fill_position s) :
    ∀ (ps : List Player) (bs : List Bool), findAssignBy pred ps bs = findAssign s ps bs
  | [], bs => by cases bs <;> simp [findAssignBy, findAssign]
  | p :: ps, [] => by simp [findAssignBy, findAssign]
  | p :: ps, b :: bs => by
    simp only [findAssignBy, findAssign, h p, findAssignBy_congr pred s h ps bs]

theorem amendedExactPhase_eq_phase1 (players : List Player) :
    ∀ (slots pending : List String) (flags : List Bool),
      amendedExactPhase players slots pending flags = phase1 players slots pending flags
  | [], _, _ => rfl
  | s :: rest, pending, flags => by
    by_cases hf : (pyUpper s == "FLEX") = true
    · simp only [amendedExactPhase, phase1, hf, if_true]
      exact amendedExactPhase_eq_phase1 players rest pending flags
    · have hfff : (pyUpper s == "FLEX") = false := by simpa using hf
      have hpred : ∀ p : Player,
          (if pyUpper s == "SUPERFLEX" then ["QB", "RB", "WR", "TE"].contains (pyUpper p.position)
           else (p.get_eligible_positions.map pyUpper).contains (pyUpper s))
            = p.can_fill_position s := by
        intro p
        unfold Player.can_fill_position
        by_cases hsf : (pyUpper s == "SUPERFLEX") = true
        · simp only [hsf, if_true]
        · have hsf2 : (pyUpper s == "SUPERFLEX") = false := by simpa using hsf
          simp only [hsf2, hfff, Bool.false_eq_true, if_false]
      simp only [amendedExactPhase, phase1, hfff, Bool.false_eq_true, if_false,
        findAssignBy_congr _ s hpred players flags]
      cases hfa : findAssign s players flags with
      | none => exact amendedExactPhase_eq_phase1 players rest pending flags
      | some flags2 => exact amendedExactPhase_eq_phase1 players rest (pending.erase s) flags2

theorem wildcardPhase_eq_phase2 (players : List Player) :
    ∀ (slots pending : List String) (flags : List Bool),
      claimedWildcardPhase ["RB", "WR", "TE"] players slots pending flags
        = phase2 players slots pending flags
  | [], _, _ => rfl
  | fs :: rest, pending, flags => by
    have hpred : ∀ p : Player,
        (["RB", "WR", "TE"].contains (pyUpper p.position)) = p.can_fill_position "FLEX" := by
      intro p
      rfl
    simp only [claimedWildcardPhase, phase2, findAssignBy_congr _ "FLEX" hpred players flags]
    cases hfa : findAssign "FLEX" players flags with
    | none => exact wildcardPhase_eq_phase2 players rest pending flags
    | some flags2 => exact wildcardPhase_eq_phase2 players rest (pending.erase fs) flags2

/-- C2 (amended): the engine's matching runs in two ordered phases with no
backtracking — an exact phase that processes, in the order given, every
non-`FLEX` required slot (so `SUPERFLEX` slots are processed here, filled
from the QB/RB/WR/TE position set, while the other slots match against the
candidate's eligibility set), followed by a wildcard phase that processes
only the remaining `FLEX` slots, filled from the RB/WR/TE position set;
each assignment takes the first not-yet-assigned candidate in list order. -/
theorem c2_exact_then_flex_phases (players : List Player) (required : List String) :
    amendedMatching players required = runMatching players required := by
  simp only [amendedMatching, runMatching, amendedExactPhase_eq_phase1,
    wildcardPhase_eq_phase2]

theorem find?_filter_ne (c : Cache) (k k2 : String) :
    List.find? (fun kv => kv.1 == k2) (c.filter (fun kv => kv.1 != k))
      = if k2 = k then none else List.find? (fun kv => kv.1 == k2) c := by
  induction c with
  | nil =>
    simp only [List.filter_nil, List.find?_nil]
    split <;> rfl
  | cons a rest ih =>
    by_cases hak : (a.1 != k) = true
    · simp only [List.filter_cons, hak, if_true]
      by_cases ha2 : (a.1 == k2) = true
      · have hk2 : a.1 = k2 := by simpa using ha2
        have hne : ¬ (k2 = k) := by
          intro he
          exact absurd hak (by simp [hk2, he])
        simp [List.find?, ha2, hne]
      · have ha2f : (a.1 == k2) = false := by simpa using ha2
        simp only [List.find?, ha2f, ih]
    · have hakf : (a.1 != k) = false := by simpa using hak
      have hek : a.1 = k := by simpa using hakf
      simp only [List.filter_cons, hakf, Bool.false_eq_true, if_false, ih]
      by_cases h2 : k2 = k
      · simp [h2]
      · have ha2 : (a.1 == k2) = false := by
          simp only [beq_eq_false_iff_ne, ne_eq, hek]
          exact fun he => h2 he.symm
        simp only [if_neg h2, List.find?, ha2]

theorem cacheGet_set (c : Cache) (k : String) (v : CacheEntry) (k2 : String) :
    cacheGet (cacheSet c k v) k2 = if k2 = k then some v else cacheGet c k2 := by
  by_cases h : k2 = k
  · subst h
    simp [cacheSet, cacheGet, List.find?]
  · have hbk : (k == k2) = false := by
      simp only [beq_eq_false_iff_ne, ne_eq]
      exact fun he => h he.symm
    simp only [cacheSet, cacheGet, List.find?, hbk, find?_filter_ne, if_neg h]

theorem cacheGet_pop (c : Cache) (k k2 : String) :
    cacheGet (cachePop c k) k2 = if k2 = k then none else cacheGet c k2 := by
  simp only [cacheGet, cachePop, find?_filter_ne]
  split <;> rfl

/-- C7 (amended): a successful draft pick evicts exactly the five affected
entries — the drafted player's position-filtered and "all"
available-players entries, draft-state, draft-order, and the team's
roster entry — while the free-agency add and drop mutations evict only
the team's roster entry and the "all" available-players entry (their
position-filtered entry, draft-state and draft-order are left to TTL
expiry); every cache entry not named is left exactly as it was. -/
theorem c7_cache_eviction (store : Store) (cache : Cache) (pid : String) (tid : Int)
    (owner week now pname : String) (player : AvailablePlayer) :
    ((parseAvailablePlayers store.available_rows).find? (fun p => p.player_id == pid) = some player →
      (make_draft_pick store cache pid tid owner week now).success = true →
      ∀ k, cacheGet (make_draft_pick store cache pid tid owner week now).cache k =
        if k = "available_players_all" ∨ k = "available_players_" ++ player.position
            ∨ k = "draft_state" ∨ k = "draft_order" ∨ k = "roster_" ++ toString tid
        then none else cacheGet cache k)
    ∧ ((drop_player store cache tid pname week).success = true →
      ∀ k, cacheGet (drop_player store cache tid pname week).cache k =
        if k = "roster_" ++ toString tid ∨ k = "available_players_all"
        then none else cacheGet cache k)
    ∧ ((add_player store cache tid pid week).success = true →
      ∀ k, cacheGet (add_player store cache tid pid week).cache k =
        if k = "roster_" ++ toString tid ∨ k = "available_players_all"
        then none else cacheGet cache k) := by
  refine ⟨?_, ?_, ?_⟩
  · intro hfind hsucc k
    cases hcp : (parseDraftOrder store.draft_order_rows).find? DraftPick.is_current with
    | none =>
      simp only [make_draft_pick, hcp, Bool.false_eq_true] at hsucc
    | some cp =>
      by_cases hturn : (!(cp.team_id.eqInt tid) || cp.owner_name != owner) = true
      · simp only [make_draft_pick, hcp, hturn, if_true, Bool.false_eq_true] at hsucc
      · have hturnf : (!(cp.team_id.eqInt tid) || cp.owner_name != owner) = false := by
          simpa using hturn
        by_cases havail : (!player.is_available) = true
        · simp only [make_draft_pick, hcp, hturnf, Bool.false_eq_true, if_false, hfind,
            havail, if_true] at hsucc
        · have havailf : (!player.is_available) = false := by simpa using havail
          cases hrow : findRowByCol0 store.available_rows pid with
          | none =>
            simp only [make_draft_pick, hcp, hturnf, Bool.false_eq_true, if_false, hfind,
              havailf, hrow] at hsucc
          | some idx =>
            simp only [make_draft_pick, hcp, hturnf, Bool.false_eq_true, if_false, hfind,
              havailf, hrow]
            simp only [cacheGet_pop, cacheGet_set]
            split_ifs <;> simp_all
  · intro hsucc k
    cases hds : dropScan tid pname week 0 store.roster_rows with
    | error =>
      simp only [drop_player, hds, Bool.false_eq_true] at hsucc
    | missing =>
      simp only [drop_player, hds, Bool.false_eq_true] at hsucc
    | found idx =>
      simp only [drop_player, hds]
      simp only [cacheGet_pop]
      split_ifs <;> simp_all
  · intro hsucc k
    cases hfp : (parseAvailablePlayers store.available_rows).find? (fun p => p.player_id == pid) with
    | none =>
      simp only [add_player, hfp, Bool.false_eq_true] at hsucc
    | some pl =>
      by_cases hav : (!pl.is_available) = true
      · simp only [add_player, hfp, hav, if_true, Bool.false_eq_true] at hsucc
      · have havf : (!pl.is_available) = false := by simpa using hav
        simp only [add_player, hfp, havf, Bool.false_eq_true, if_false]
        simp only [cacheGet_pop, cacheGet_set]
        split_ifs <;> simp_all

/-- C4: when no pick is marked current, or the requesting team id / owner
name does not match the current pick, or the requested player is missing
or not available, `make_draft_pick` fails with the remote store untouched
and no remote write performed — the failure occurs before any write. -/
theorem c4_failure_before_write (store : Store) (cache : Cache) (pid : String) (tid : Int)
    (owner week now : String) :
    ((parseDraftOrder store.draft_order_rows).find? DraftPick.is_current = none
      ∨ (∃ cp, (parseDraftOrder store.draft_order_rows).find? DraftPick.is_current = some cp
          ∧ (cp.team_id.eqInt tid = false ∨ cp.owner_name ≠ owner))
      ∨ (∀ p, (parseAvailablePlayers store.available_rows).find? (fun q => q.player_id == pid) = some p
          → p.is_available = false))
    → (make_draft_pick store cache pid tid owner week now).success = false
      ∧ (make_draft_pick store cache pid tid owner week now).store = store
      ∧ (make_draft_pick store cache pid tid owner week now).writes = [] := by
  intro hcond
  cases hcp : (parseDraftOrder store.draft_order_rows).find? DraftPick.is_current with
  | none =>
    simp only [make_draft_pick, hcp]
    exact ⟨trivial, trivial, trivial⟩
  | some cp =>
    by_cases hturn : (!(cp.team_id.eqInt tid) || cp.owner_name != owner) = true
    · simp only [make_draft_pick, hcp, hturn, if_true]
      exact ⟨trivial, trivial, trivial⟩
    · have hturnf : (!(cp.team_id.eqInt tid) || cp.owner_name != owner) = false := by
        simpa using hturn
      have hpl : ∀ p, (parseAvailablePlayers store.available_rows).find?
          (fun q => q.player_id == pid) = some p → p.is_available = false := by
        rcases hcond with h1 | ⟨cp2, hcp2, h2⟩ | h3
        · rw [hcp] at h1
          exact absurd h1 (by simp)
        · rw [hcp] at hcp2
          injection hcp2 with he
          subst he
          exfalso
          apply hturn
          rcases h2 with h2a | h2b
          · simp [h2a]
          · simp [bne_iff_ne, h2b]
        · exact h3
      cases hfp : (parseAvailablePlayers store.available_rows).find?
          (fun q => q.player_id == pid) with
      | none =>
        simp only [make_draft_pick, hcp, hturnf, Bool.false_eq_true, if_false, hfp]
        exact ⟨trivial, trivial, trivial⟩
      | some p =>
        have hav : p.is_available = false := hpl p hfp
        have havb : (!p.is_available) = true := by simp [hav]
        simp only [make_draft_pick, hcp, hturnf, Bool.false_eq_true, if_false, hfp, havb, if_true]
        exact ⟨trivial, trivial, trivial⟩

/-- Witness for C4: an empty draft order has no current pick, and the pick
attempt fails leaving the store untouched with no write. -/
theorem c4_failure_before_write_witness :
    (parseDraftOrder (⟨[], [], [], [], [], [], [], []⟩ : Store).draft_order_rows).find?
        DraftPick.is_current = none
    ∧ (make_draft_pick ⟨[], [], [], [], [], [], [], []⟩ [] "1" 7 "Goober" "Week 18" "t").success = false
    ∧ (make_draft_pick ⟨[], [], [], [], [], [], [], []⟩ [] "1" 7 "Goober" "Week 18" "t").store
        = ⟨[], [], [], [], [], [], [], []⟩
    ∧ (make_draft_pick ⟨[], [], [], [], [], [], [], []⟩ [] "1" 7 "Goober" "Week 18" "t").writes = [] :=
  ⟨by decide,
    (c4_failure_before_write ⟨[], [], [], [], [], [], [], []⟩ [] "1" 7 "Goober" "Week 18" "t"
      (Or.inl (by decide))).1,
    (c4_failure_before_write ⟨[], [], [], [], [], [], [], []⟩ [] "1" 7 "Goober" "Week 18" "t"
      (Or.inl (by decide))).2.1,
    (c4_failure_before_write ⟨[], [], [], [], [], [], [], []⟩ [] "1" 7 "Goober" "Week 18" "t"
      (Or.inl (by decide))).2.2⟩

/-- C9: after every successful draft pick, the Draft_State write advances the
pick counter by one; when the incremented counter exceeds the number of
distinct team ids among the round-1 entries of the draft order it resets
to 1 and the round counter increments; and the draft-complete cell is
written `"true"` exactly when the new round counter exceeds the total
round count (the constant 5 assumed by this code path). -/
theorem c9_draft_state_advancement (store : Store) (cache : Cache) (pid : String) (tid : Int)
    (owner week now : String) :
    (make_draft_pick store cache pid tid owner week now).success = true →
    (let ds := parseDraftState store.draft_state_rows
     let n : Int := (((parseDraftOrder store.draft_order_rows).filter
         (fun p => p.round.eqInt 1)).map (fun p => p.team_id)).dedup.length
     let r2 := if ds.current_pick + 1 > n then ds.current_round + 1 else ds.current_round
     let p2 := if ds.current_pick + 1 > n then 1 else ds.current_pick + 1
     draftStateWrites (make_draft_pick store cache pid tid owner week now).writes
       = [WriteOp.writeDraftState
           [toString r2, toString p2, "true",
            if r2 > assumedTotalRounds then "true" else "false", now]]) := by
  intro hsucc
  have hflip : ∀ r : Int,
      (if r ≤ assumedTotalRounds then "false" else "true")
        = (if r > assumedTotalRounds then "true" else "false") := by
    intro r
    by_cases h : r ≤ assumedTotalRounds
    · rw [if_pos h, if_neg (by omega)]
    · rw [if_neg h, if_pos (by omega)]
  cases hcp : (parseDraftOrder store.draft_order_rows).find? DraftPick.is_current with
  | none =>
    simp only [make_draft_pick, hcp, Bool.false_eq_true] at hsucc
  | some cp =>
    by_cases hturn : (!(cp.team_id.eqInt tid) || cp.owner_name != owner) = true
    · simp only [make_draft_pick, hcp, hturn, if_true, Bool.false_eq_true] at hsucc
    · have hturnf : (!(cp.team_id.eqInt tid) || cp.owner_name != owner) = false := by
        simpa using hturn
      cases hfp : (parseAvailablePlayers store.available_rows).find?
          (fun q => q.player_id == pid) with
      | none =>
        simp only [make_draft_pick, hcp, hturnf, Bool.false_eq_true, if_false, hfp] at hsucc
      | some player =>
        by_cases havail : (!player.is_available) = true
        · simp only [make_draft_pick, hcp, hturnf, Bool.false_eq_true, if_false, hfp,
            havail, if_true] at hsucc
        · have havailf : (!player.is_available) = false := by simpa using havail
          cases hrow : findRowByCol0 store.available_rows pid with
          | none =>
            simp only [make_draft_pick, hcp, hturnf, Bool.false_eq_true, if_false, hfp,
              havailf, hrow] at hsucc
          | some idx =>
            simp only [make_draft_pick, hcp, hturnf, Bool.false_eq_true, if_false, hfp,
              havailf, hrow]
            cases hidx : (parseDraftOrder store.draft_order_rows).findIdx? DraftPick.is_current with
            | none =>
              simp only [hidx, draftStateWrites, List.filter_append, List.filter_cons,
                List.filter_nil]
              simp [hflip]
            | some oidx =>
              by_cases hnext : oidx + 1 < (parseDraftOrder store.draft_order_rows).length
              · simp only [hidx, hnext, if_true, draftStateWrites, List.filter_append,
                  List.filter_cons, List.filter_nil]
                simp [hflip]
              · simp only [hidx, hnext, if_false, draftStateWrites, List.filter_append,
                  List.filter_cons, List.filter_nil]
                simp [hflip]

/-- Witness for C9: one team in round 1, pick 1 of round 1 — the write rolls
over to round 2 pick 1 and the draft-complete cell stays `"false"`. -/
theorem c9_draft_state_advancement_witness :
    (make_draft_pick
        ⟨[], [], [], [], [["1", "Pat", "QB", "KC", "1", "available", "QB"]], [],
          [["current_round", "1"], ["current_pick", "1"]],
          [["1", "1", "7", "Goober", "current"]]⟩
        [] "1" 7 "Goober" "Week 18" "t").success = true
    ∧ draftStateWrites (make_draft_pick
        ⟨[], [], [], [], [["1", "Pat", "QB", "KC", "1", "available", "QB"]], [],
          [["current_round", "1"], ["current_pick", "1"]],
          [["1", "1", "7", "Goober", "current"]]⟩
        [] "1" 7 "Goober" "Week 18" "t").writes
      = [WriteOp.writeDraftState ["2", "1", "true", "false", "t"]] :=
  ⟨by decide,
    (c9_draft_state_advancement
        ⟨[], [], [], [], [["1", "Pat", "QB", "KC", "1", "available", "QB"]], [],
          [["current_round", "1"], ["current_pick", "1"]],
          [["1", "1", "7", "Goober", "current"]]⟩
        [] "1" 7 "Goober" "Week 18" "t" (by decide)).trans (by decide)⟩

/-- Witness for C7 at concrete successful pick, drop and add runs. -/
theorem c7_cache_eviction_witness :
    cacheGet (make_draft_pick
        ⟨[], [], [], [], [["1", "Pat", "QB", "KC", "1", "available", "QB"]], [],
          [["current_round", "1"], ["current_pick", "1"]],
          [["1", "1", "7", "Goober", "current"]]⟩
        [("teams", CacheEntry.tableRows [])] "1" 7 "Goober" "Week 18" "t").cache "draft_state" = none
    ∧ cacheGet (make_draft_pick
        ⟨[], [], [], [], [["1", "Pat", "QB", "KC", "1", "available", "QB"]], [],
          [["current_round", "1"], ["current_pick", "1"]],
          [["1", "1", "7", "Goober", "current"]]⟩
        [("teams", CacheEntry.tableRows [])] "1" 7 "Goober" "Week 18" "t").cache "teams"
      = some (CacheEntry.tableRows [])
    ∧ cacheGet (drop_player
        ⟨[], [], [], [["7", "Week 18", "QB", "Pat", "KC", "0", "0", "active", "QB"]],
          [["1", "Pat", "QB", "KC", "1", "drafted", "QB"]], [], [], []⟩
        [("teams", CacheEntry.tableRows [])] 7 "Pat" "Week 18").cache "roster_7" = none
    ∧ cacheGet (add_player
        ⟨[], [], [], [], [["1", "Pat", "QB", "KC", "1", "available", "QB"]], [], [], []⟩
        [("teams", CacheEntry.tableRows [])] 7 "1" "Week 18").cache "available_players_all" = none := by
  refine ⟨?_, ?_, ?_, ?_⟩
  · exact ((c7_cache_eviction
      ⟨[], [], [], [], [["1", "Pat", "QB", "KC", "1", "available", "QB"]], [],
        [["current_round", "1"], ["current_pick", "1"]],
        [["1", "1", "7", "Goober", "current"]]⟩
      [("teams", CacheEntry.tableRows [])] "1" 7 "Goober" "Week 18" "t" ""
      ⟨"1", "Pat", "QB", "KC", 1, "available", "QB"⟩).1
      (by decide) (by decide) "draft_state").trans (by decide)
  · exact ((c7_cache_eviction
      ⟨[], [], [], [], [["1", "Pat", "QB", "KC", "1", "available", "QB"]], [],
        [["current_round", "1"], ["current_pick", "1"]],
        [["1", "1", "7", "Goober", "current"]]⟩
      [("teams", CacheEntry.tableRows [])] "1" 7 "Goober" "Week 18" "t" ""
      ⟨"1", "Pat", "QB", "KC", 1, "available", "QB"⟩).1
      (by decide) (by decide) "teams").trans (by decide)
  · exact ((c7_cache_eviction
      ⟨[], [], [], [["7", "Week 18", "QB", "Pat", "KC", "0", "0", "active", "QB"]],
        [["1", "Pat", "QB", "KC", "1", "drafted", "QB"]], [], [], []⟩
      [("teams", CacheEntry.tableRows [])] "1" 7 "Goober" "Week 18" "t" "Pat"
      ⟨"1", "Pat", "QB", "KC", 1, "available", "QB"⟩).2.1
      (by decide) "roster_7").trans (by decide)
  · exact ((c7_cache_eviction
      ⟨[], [], [], [], [["1", "Pat", "QB", "KC", "1", "available", "QB"]], [], [], []⟩
      [("teams", CacheEntry.tableRows [])] "1" 7 "Goober" "Week 18" "t" ""
      ⟨"1", "Pat", "QB", "KC", 1, "available", "QB"⟩).2.2
      (by decide) "available_players_all").trans (by decide)

/-- Counterexample to C7 as stated: a successful free-agency add of a QB
leaves the `available_players_QB` position entry and the `draft_state`
entry cached, though the claim says every mutation evicts them. -/
theorem c7_counterexample :
    (add_player
        ⟨[], [], [], [], [["1", "Pat", "QB", "KC", "1", "available", "QB"]], [], [], []⟩
        [("available_players_QB", CacheEntry.availablePlayers []),
         ("draft_state", CacheEntry.draftState (DraftState.mk_post "1" "1" "false" "false" ""))]
        7 "1" "Week 18").success = true
    ∧ cacheGet (add_player
        ⟨[], [], [], [], [["1", "Pat", "QB", "KC", "1", "available", "QB"]], [], [], []⟩
        [("available_players_QB", CacheEntry.availablePlayers []),
         ("draft_state", CacheEntry.draftState (DraftState.mk_post "1" "1" "false" "false" ""))]
        7 "1" "Week 18").cache "available_players_QB" = some (CacheEntry.availablePlayers [])
    ∧ cacheGet (add_player
        ⟨[], [], [], [], [["1", "Pat", "QB", "KC", "1", "available", "QB"]], [], [], []⟩
        [("available_players_QB", CacheEntry.availablePlayers []),
         ("draft_state", CacheEntry.draftState (DraftState.mk_post "1" "1" "false" "false" ""))]
        7 "1" "Week 18").cache "draft_state"
      = some (CacheEntry.draftState (DraftState.mk_post "1" "1" "false" "false" "")) := by
  refine ⟨?_, ?_, ?_⟩ <;> decide

theorem get_all_draft_data_hit (store : Store) (cache : Cache) (snap : AllDraftData)
    (h : cacheGet cache "all_draft_data" = some (.allDraftData snap)) :
    get_all_draft_data store cache true true
      = (refreshTurnData snap store,
          cacheSet (cacheSet cache "draft_state"
              (.draftState (parseDraftState store.draft_state_rows)))
            "draft_order" (.draftOrder (parseDraftOrder store.draft_order_rows)),
          [.small "Draft_State!A2:B10", .small "Draft_Order!A2:G100"]) := by
  simp only [get_all_draft_data, if_true, h, refreshTurnData]

theorem get_all_draft_data_miss (store : Store) (cache : Cache)
    (h : cacheGet cache "all_draft_data" = none) :
    get_all_draft_data store cache true true
      = (buildAllDraftData store,
          cacheSet cache "all_draft_data" (.allDraftData (buildAllDraftData store)),
          [.batch allDraftRanges]) := by
  simp only [get_all_draft_data, if_true, h]

/-- While the snapshot entry is cached, each real-time turn-state request
performs exactly its two small reads, no batch fetch, and leaves the
snapshot entry in place. -/
theorem runFreshTurnCalls_trace :
    ∀ (stores : List Store) (c : Cache) (snap : AllDraftData),
      cacheGet c "all_draft_data" = some (.allDraftData snap) →
      (batchFetches (runFreshTurnCalls stores c).2).length = 0
      ∧ (smallFetches (runFreshTurnCalls stores c).2).length = 2 * stores.length
  | [], c, snap, h => by simp [runFreshTurnCalls, batchFetches, smallFetches]
  | s :: rest, c, snap, h => by
    have hbr := get_all_draft_data_hit s c snap h
    have hpre : cacheGet (cacheSet (cacheSet c "draft_state"
          (.draftState (parseDraftState s.draft_state_rows)))
        "draft_order" (.draftOrder (parseDraftOrder s.draft_order_rows)))
        "all_draft_data" = some (.allDraftData snap) := by
      rw [cacheGet_set, if_neg (by decide), cacheGet_set, if_neg (by decide)]
      exact h
    have ih := runFreshTurnCalls_trace rest _ snap hpre
    simp only [runFreshTurnCalls, hbr]
    simp only [batchFetches, smallFetches, List.filter_append] at ih ⊢
    simp only [List.length_append, ih.1, ih.2, List.filter_cons, List.filter_nil]
    constructor
    · simp
    · simp
      omega

/-- C6: a real-time request (`use_cache=True, force_fresh_draft_state=True`)
against an unexpired snapshot returns the cached snapshot with only the
draft-state and current-pick fields replaced by freshly fetched values,
obtained by exactly the two small range reads and no full-table fetch;
with the snapshot absent, one full batch fetch runs and is cached; hence
one full snapshot fetch followed by N in-TTL turn-state requests performs
exactly one full-table fetch and N turn-state refreshes of two small
reads each. -/
theorem c6_two_tier_refresh (store : Store) (cache : Cache) (snap : AllDraftData)
    (stores : List Store) :
    (cacheGet cache "all_draft_data" = some (.allDraftData snap) →
      get_all_draft_data store cache true true
        = (refreshTurnData snap store,
            cacheSet (cacheSet cache "draft_state"
                (.draftState (parseDraftState store.draft_state_rows)))
              "draft_order" (.draftOrder (parseDraftOrder store.draft_order_rows)),
            [.small "Draft_State!A2:B10", .small "Draft_Order!A2:G100"]))
    ∧ (cacheGet cache "all_draft_data" = none →
        get_all_draft_data store cache true true
          = (buildAllDraftData store,
              cacheSet cache "all_draft_data" (.allDraftData (buildAllDraftData store)),
              [.batch allDraftRanges]))
    ∧ (cacheGet cache "all_draft_data" = none →
        (batchFetches ((get_all_draft_data store cache true true).2.2
            ++ (runFreshTurnCalls stores (get_all_draft_data store cache true true).2.1).2)).length = 1
        ∧ (smallFetches ((get_all_draft_data store cache true true).2.2
            ++ (runFreshTurnCalls stores (get_all_draft_data store cache true true).2.1).2)).length
          = 2 * stores.length) := by
  refine ⟨get_all_draft_data_hit store cache snap, get_all_draft_data_miss store cache, ?_⟩
  intro h
  rw [get_all_draft_data_miss store cache h]
  have hpre : cacheGet (cacheSet cache "all_draft_data"
      (.allDraftData (buildAllDraftData store))) "all_draft_data"
      = some (.allDraftData (buildAllDraftData store)) := by
    rw [cacheGet_set, if_pos rfl]
  have ht := runFreshTurnCalls_trace stores _ (buildAllDraftData store) hpre
  simp only [batchFetches, smallFetches, List.filter_append, List.length_append] at ht ⊢
  simp only [ht.1, ht.2, List.filter_cons, List.filter_nil]
  constructor
  · simp
  · simp

/-- Witness for C6 at a one-element snapshot cache, one fresh store and a
single follow-up turn-state request. -/
theorem c6_two_tier_refresh_witness :
    get_all_draft_data
        ⟨[], [], [], [], [], [], [["current_round", "2"]], []⟩
        [("all_draft_data", CacheEntry.allDraftData
          ⟨⟨"L", "W", "U"⟩, [], [], [], [], DraftState.mk_post "1" "1" "false" "false" "", [], none⟩)]
        true true
      = (⟨⟨"L", "W", "U"⟩, [], [], [], [], DraftState.mk_post "2" "1" "false" "false" "", [], none⟩,
          cacheSet (cacheSet
              [("all_draft_data", CacheEntry.allDraftData
                ⟨⟨"L", "W", "U"⟩, [], [], [], [], DraftState.mk_post "1" "1" "false" "false" "", [], none⟩)]
              "draft_state" (.draftState (DraftState.mk_post "2" "1" "false" "false" "")))
            "draft_order" (.draftOrder []),
          [.small "Draft_State!A2:B10", .small "Draft_Order!A2:G100"])
    ∧ ((batchFetches ((get_all_draft_data ⟨[], [], [], [], [], [], [], []⟩ [] true true).2.2
          ++ (runFreshTurnCalls [⟨[], [], [], [], [], [], [], []⟩]
              (get_all_draft_data ⟨[], [], [], [], [], [], [], []⟩ [] true true).2.1).2)).length = 1
        ∧ (smallFetches ((get_all_draft_data ⟨[], [], [], [], [], [], [], []⟩ [] true true).2.2
          ++ (runFreshTurnCalls [⟨[], [], [], [], [], [], [], []⟩]
              (get_all_draft_data ⟨[], [], [], [], [], [], [], []⟩ [] true true).2.1).2)).length = 2) := by
  constructor
  · exact ((c6_two_tier_refresh
      ⟨[], [], [], [], [], [], [["current_round", "2"]], []⟩
      [("all_draft_data", CacheEntry.allDraftData
        ⟨⟨"L", "W", "U"⟩, [], [], [], [], DraftState.mk_post "1" "1" "false" "false" "", [], none⟩)]
      ⟨⟨"L", "W", "U"⟩, [], [], [], [], DraftState.mk_post "1" "1" "false" "false" "", [], none⟩
      []).1 (by decide)).trans (by decide)
  · exact (c6_two_tier_refresh ⟨[], [], [], [], [], [], [], []⟩ []
      ⟨⟨"L", "W", "U"⟩, [], [], [], [], DraftState.mk_post "1" "1" "false" "false" "", [], none⟩
      [⟨[], [], [], [], [], [], [], []⟩]).2.2 (by decide)
